import Mathlib

/-
Verification of the `box` package (tidwall/box): a 16-byte boxed-value
representation with primitive sentinels, inline text/bytes and a type-erased
escape path.  The Go source (box.go) is shallowly embedded below: machine
words are `Nat` (reduced mod 2^64 where Go would wrap), `float64` values are
represented by their IEEE-754 bit patterns (`Nat` below 2^64), pointers are
an inductive `Ptr` whose non-sentinel constructors carry the pointee so that
decoding is expressible; pointer equality in the model corresponds to
machine-pointer-word equality where the pointees can alias.
-/

set_option maxRecDepth 4000

namespace Box

/-- Conversion Go `uint64(x)` of an `int64` value: two's-complement bits. -/
def u64ofInt (x : Int) : Nat := (x % 18446744073709551616).toNat

/-- Conversion Go `int64(u)` of a `uint64` bit pattern. -/
def i64ofU64 (n : Nat) : Int :=
  if n < 9223372036854775808 then (n : Int) else (n : Int) - 18446744073709551616

/-- Sign bit of an IEEE-754 binary64 bit pattern. -/
def f64SignBit (bits : Nat) : Bool := bits / 0x8000000000000000 % 2 == 1

/-- Magnitude (sign bit cleared) of a binary64 bit pattern. -/
def f64Mag (bits : Nat) : Nat := bits % 0x8000000000000000

/-- Biased exponent field of a binary64 bit pattern. -/
def f64ExpField (bits : Nat) : Nat := bits / 0x10000000000000 % 2048

/-- Mantissa field of a binary64 bit pattern. -/
def f64MantField (bits : Nat) : Nat := bits % 0x10000000000000

/-- Whether a binary64 bit pattern is a NaN. -/
def f64IsNaN (bits : Nat) : Bool := f64ExpField bits == 2047 && f64MantField bits != 0

/-- Bit pattern produced by Go `math.NaN()` (strconv also returns it for "nan"). -/
def goNaNBits : Nat := 0x7FF8000000000001

/-- Bit pattern of `+Inf`. -/
def f64PosInfBits : Nat := 0x7FF0000000000000

/-- Bit pattern of `-Inf`. -/
def f64NegInfBits : Nat := 0xFFF0000000000000

/-- Totally ordered key of a non-NaN binary64 bit pattern: IEEE-754 comparison
of two non-NaN values coincides with integer comparison of their keys
(the encoding is monotone in the magnitude for each sign, and -0 = +0). -/
def f64Key (bits : Nat) : Int :=
  if f64SignBit bits then -(f64Mag bits : Int) else (f64Mag bits : Int)

/-- IEEE-754 `<` on binary64 bit patterns (false whenever either side is NaN). -/
def f64Lt (a b : Nat) : Bool := !f64IsNaN a && !f64IsNaN b && decide (f64Key a < f64Key b)

/-- Round `n / d` to the nearest integer, ties to even (`d > 0`). -/
def roundDivEven (n d : Nat) : Nat :=
  let q := n / d
  let r := n % d
  if 2 * r > d || (2 * r == d && q % 2 == 1) then q + 1 else q

/-- Test `2^e ≤ num/den` for an integer exponent `e`. -/
def ratGePow2 (num den : Nat) (e : Int) : Bool :=
  if 0 ≤ e then decide (den * 2 ^ e.toNat ≤ num) else decide (den ≤ num * 2 ^ (-e).toNat)

/-- Structural-recursion implementation of `Nat.log2` (fuel-driven so the
kernel can evaluate it); the initial fuel `n` always suffices since at most
`log2 n + 1 ≤ n` halvings occur. -/
def natLog2Go : Nat → Nat → Nat
  | 0, _ => 0
  | f + 1, n => if n < 2 then 0 else natLog2Go f (n / 2) + 1

/-- Floor of the base-2 logarithm (0 at 0), computable by kernel reduction. -/
def natLog2 (n : Nat) : Nat := natLog2Go n n

/-- Correctly rounded (round to nearest, ties to even) conversion of the
rational `(-1)^neg * num / den` (`den > 0`) to an IEEE-754 binary64 bit
pattern; `none` when the rounded value overflows to infinity (the strconv
range error), a value that underflows to zero yields a signed zero. -/
def floatBitsOfRat (neg : Bool) (num den : Nat) : Option Nat :=
  let sign := if neg then 0x8000000000000000 else 0
  if num == 0 then some sign
  else
    let e0 : Int := (natLog2 num : Int) - (natLog2 den : Int)
    let e : Int := if ratGePow2 num den e0 then e0 else e0 - 1
    let bits0 : Nat :=
      if e < -1022 then
        -- subnormal range: significand at fixed scale 2^-1074
        roundDivEven (num * 2 ^ 1074) den
      else
        -- normal range: 53-bit significand q ∈ [2^52, 2^53]; the +1022 bias
        -- makes a rounding carry from q propagate into the exponent field
        let s : Int := 52 - e
        let q := if 0 ≤ s then roundDivEven (num * 2 ^ s.toNat) den
                 else roundDivEven num (den * 2 ^ (-s).toNat)
        (e + 1022).toNat * 0x10000000000000 + q
    if bits0 ≥ 0x7FF0000000000000 then none else some (sign + bits0)

/-- Go conversion `float64(u)` of a `uint64` (round to nearest even). -/
def natToF64 (n : Nat) : Nat := (floatBitsOfRat false n 1).getD 0

/-- Go conversion `float64(x)` of an `int64` (round to nearest even). -/
def intToF64 (x : Int) : Nat :=
  if x < 0 then (floatBitsOfRat true (-x).toNat 1).getD 0
  else (floatBitsOfRat false x.toNat 1).getD 0

/-- Integer part of the magnitude of a finite binary64 bit pattern. -/
def f64IntMag (bits : Nat) : Nat :=
  let f := f64ExpField bits
  let m := f64MantField bits
  if f == 0 then 0
  else (0x10000000000000 + m) * 2 ^ f / 2 ^ 1075

/-- Go conversion `int64(f)` of a `float64`: truncation toward zero with the
saturating out-of-range behaviour of the arm64 `fcvtzs` instruction (NaN maps
to 0), the semantics under which the package test suite passes
(`Float64(math.NaN()).Int() == 0` in box_test.go). -/
def f64ToI64 (bits : Nat) : Int :=
  if f64IsNaN bits then 0
  else if f64SignBit bits then
    let m := f64IntMag bits
    if m ≥ 0x8000000000000000 then -0x8000000000000000 else -(m : Int)
  else
    let m := f64IntMag bits
    if m ≥ 0x8000000000000000 then 0x7FFFFFFFFFFFFFFF else m

/-- Go conversion `uint64(f)` of a `float64`: truncation toward zero with the
saturating arm64 `fcvtzu` behaviour (NaN and negative values map to 0). -/
def f64ToU64 (bits : Nat) : Nat :=
  if f64IsNaN bits || f64SignBit bits then 0
  else min (f64IntMag bits) 0xFFFFFFFFFFFFFFFF

/-- Fuel-driven digit extraction (structural recursion so the kernel can
evaluate it; `n` halvings of fuel always suffice). -/
def natDecDigitsGo : Nat → Nat → List Nat
  | 0, _ => []
  | f + 1, n => if n < 10 then [48 + n] else natDecDigitsGo f (n / 10) ++ [48 + n % 10]

/-- ASCII decimal digits of a natural number, most significant first. -/
def natDecDigits (n : Nat) : List Nat := natDecDigitsGo (n + 1) n

/-- Model of Go `strconv.FormatUint(n, 10)`. -/
def formatUint (n : Nat) : List Nat := natDecDigits n

/-- Model of Go `strconv.FormatInt(x, 10)`. -/
def formatInt (x : Int) : List Nat :=
  if x < 0 then 45 :: natDecDigits (-x).toNat else natDecDigits x.toNat

/-- Model of Go `strconv.FormatBool`: the bytes of "true" / "false". -/
def formatBool (b : Bool) : List Nat :=
  if b then [116, 114, 117, 101] else [102, 97, 108, 115, 101]

/-- Decimal representation of the magnitude of a finite nonzero binary64 bit
pattern: a pair `(d, k)` with magnitude exactly `d * 10^k` (`k ≤ 0`). -/
def f64DecPair (bits : Nat) : Nat × Int :=
  let f := f64ExpField bits
  let m := f64MantField bits
  let me : Nat × Int := if f == 0 then (m, -1074) else (0x10000000000000 + m, (f : Int) - 1075)
  if 0 ≤ me.2 then (me.1 * 2 ^ me.2.toNat, 0) else (me.1 * 5 ^ (-me.2).toNat, me.2)

/-- Numerator/denominator of the rational `d * 10^k`. -/
def ratOfDec (d : Nat) (k : Int) : Nat × Nat :=
  if 0 ≤ k then (d * 10 ^ k.toNat, 1) else (d, 10 ^ (-k).toNat)

/-- Trailing-zero stripped ASCII digit list. -/
def dropTrailingZeros (l : List Nat) : List Nat :=
  (l.reverse.dropWhile (· == 48)).reverse

/-- Render the decimal `(-1)^neg * d * 10^k` in Go `'f'` format (no exponent,
minimal fraction digits). -/
def renderDecF (neg : Bool) (d : Nat) (k : Int) : List Nat :=
  let sgn : List Nat := if neg then [45] else []
  if 0 ≤ k then sgn ++ natDecDigits (d * 10 ^ k.toNat)
  else
    let q := 10 ^ (-k).toNat
    let ip := d / q
    let fp := d % q
    let fdigits := List.replicate ((-k).toNat - (natDecDigits fp).length) 48 ++ natDecDigits fp
    let f' := dropTrailingZeros fdigits
    if f'.isEmpty then sgn ++ natDecDigits ip
    else sgn ++ natDecDigits ip ++ [46] ++ f'

/-- Model of Go `strconv.FormatFloat(f, 'f', -1, 64)` on bit patterns: the
shortest decimal digit string that parses back to the same bit pattern,
rendered without an exponent.  The digit string is found by rounding the exact
decimal value to increasing significant-digit counts and checking the
round-trip with the correctly rounded parser; this realises FormatFloat's
shortest-round-trip contract. -/
def formatFloat (bits : Nat) : List Nat :=
  if f64IsNaN bits then [78, 97, 78]
  else if f64ExpField bits == 2047 then
    (if f64SignBit bits then [45, 73, 110, 102] else [43, 73, 110, 102])
  else if f64Mag bits == 0 then (if f64SignBit bits then [45, 48] else [48])
  else
    let neg := f64SignBit bits
    let dk := f64DecPair bits
    let n := (natDecDigits dk.1).length
    let cand := ((List.range n).findSome? fun i =>
      let p := i + 1
      if p < n then
        let drop := n - p
        let c := roundDivEven dk.1 (10 ^ drop)
        let ck := dk.2 + drop
        let nd := ratOfDec c ck
        if floatBitsOfRat neg nd.1 nd.2 == some bits then some (c, ck) else none
      else none).getD (dk.1, dk.2)
    renderDecF neg cand.1 cand.2

/-- ASCII lower-casing of a byte. -/
def asciiLower (c : Nat) : Nat := if 65 ≤ c && c ≤ 90 then c + 32 else c

/-- ASCII decimal digit test. -/
def isDigit (c : Nat) : Bool := 48 ≤ c && c ≤ 57

/-- ASCII hexadecimal digit test. -/
def isHexDigit (c : Nat) : Bool := isDigit c || (97 ≤ asciiLower c && asciiLower c ≤ 102)

/-- Numeric value of an ASCII (hex) digit. -/
def digitVal (c : Nat) : Nat := if isDigit c then c - 48 else asciiLower c - 87

/-- Value of a digit string in the given base. -/
def digitsToNat (base : Nat) (l : List Nat) : Nat :=
  l.foldl (fun a c => a * base + digitVal c) 0

/-- Model of Go `strconv.ParseBool` on byte strings: exactly the listed
literals are accepted ("1 t T TRUE true True" / "0 f F FALSE false False"). -/
def parseBool (s : List Nat) : Option Bool :=
  if s == [49] || s == [116] || s == [84] || s == [84, 82, 85, 69] ||
     s == [116, 114, 117, 101] || s == [84, 114, 117, 101] then some true
  else if s == [48] || s == [102] || s == [70] || s == [70, 65, 76, 83, 69] ||
     s == [102, 97, 108, 115, 101] || s == [70, 97, 108, 115, 101] then some false
  else none

/-- Model of Go `strconv.ParseUint(s, 10, 64)`: decimal digits only (no sign,
no underscores at base 10), error when empty, malformed or above 2^64-1. -/
def parseUint (s : List Nat) : Option Nat :=
  if s.isEmpty || !s.all isDigit then none
  else
    let v := digitsToNat 10 s
    if v ≤ 0xFFFFFFFFFFFFFFFF then some v else none

/-- Model of Go `strconv.ParseInt(s, 10, 64)`: optional sign, decimal digits,
error when empty, malformed or out of the int64 range. -/
def parseInt (s : List Nat) : Option Int :=
  match s with
  | [] => none
  | c :: rest =>
    let p : Bool × List Nat :=
      if c == 45 then (true, rest) else if c == 43 then (false, rest) else (false, s)
    if p.2.isEmpty || !p.2.all isDigit then none
    else
      let v := digitsToNat 10 p.2
      if p.1 then (if v ≤ 0x8000000000000000 then some (-(v : Int)) else none)
      else (if v ≤ 0x7FFFFFFFFFFFFFFF then some (v : Int) else none)

/-- Special float strings recognized by Go `strconv.ParseFloat`, matched
case-insensitively over the whole input: "nan" (no sign) and signed
"inf" / "infinity". -/
def parseFloatSpecial (s : List Nat) : Option Nat :=
  let ls := s.map asciiLower
  if ls == [110, 97, 110] then some goNaNBits
  else if ls == [105, 110, 102] || ls == [43, 105, 110, 102] ||
          ls == [105, 110, 102, 105, 110, 105, 116, 121] ||
          ls == [43, 105, 110, 102, 105, 110, 105, 116, 121] then some f64PosInfBits
  else if ls == [45, 105, 110, 102] ||
          ls == [45, 105, 110, 102, 105, 110, 105, 116, 121] then some f64NegInfBits
  else none

/-- Model of Go strconv's `underscoreOK`: underscores may appear only between
digits (or between a base prefix and a digit); every other placement, and a
trailing underscore, is rejected.  State: 0 = start, 1 = saw digit (or base
prefix), 2 = saw underscore, 3 = saw other. -/
def underscoreOK (s : List Nat) : Bool :=
  let t := match s with
    | c :: r => if c == 43 || c == 45 then r else s
    | [] => s
  let pre : Bool × List Nat × Nat := match t with
    | a :: b :: r =>
      if a == 48 && asciiLower b == 120 then (true, r, 1) else (false, t, 0)
    | _ => (false, t, 0)
  let hex := pre.1
  let fin := pre.2.1.foldl (fun (st : Option Nat) c =>
      match st with
      | none => none
      | some saw =>
        if (if hex then isHexDigit c else isDigit c) then some 1
        else if c == 95 then (if saw == 1 then some 2 else none)
        else if saw == 2 then none
        else some 3) (some pre.2.2)
  match fin with
  | some 2 => false
  | some _ => true
  | none => false

/-- Optionally signed decimal digit run, consumed entirely (used for float
exponents). -/
def parseSignedDigits (s : List Nat) : Option Int :=
  match s with
  | [] => none
  | c :: r =>
    let p : Bool × List Nat :=
      if c == 43 then (false, r) else if c == 45 then (true, r) else (false, s)
    if p.2.isEmpty || !p.2.all isDigit then none
    else some (if p.1 then -(digitsToNat 10 p.2 : Int) else (digitsToNat 10 p.2 : Int))

/-- Leading sign split of a numeric literal. -/
def splitSign (s : List Nat) : Bool × List Nat :=
  match s with
  | c :: r => if c == 45 then (true, r) else if c == 43 then (false, r) else (false, s)
  | [] => (false, s)

/-- Correctly rounded bits of `(-1)^neg * m * 10^k`. -/
def decToBits (neg : Bool) (m : Nat) (k : Int) : Option Nat :=
  let nd := ratOfDec m k
  floatBitsOfRat neg nd.1 nd.2

/-- Decimal float syntax after the sign: digits with at most one dot (at least
one digit overall) and an optional signed `e`/`E` exponent; the whole input
must be consumed. -/
def parseDecFloat (neg : Bool) (u : List Nat) : Option Nat :=
  let ip := u.takeWhile isDigit
  let r1 := u.drop ip.length
  let fr : List Nat × List Nat := match r1 with
    | 46 :: rr => (rr.takeWhile isDigit, rr.drop (rr.takeWhile isDigit).length)
    | _ => ([], r1)
  if ip.isEmpty && fr.1.isEmpty then none
  else
    let m := digitsToNat 10 (ip ++ fr.1)
    let dp0 : Int := -(fr.1.length : Int)
    match fr.2 with
    | [] => decToBits neg m dp0
    | c :: rr =>
      if asciiLower c == 101 then
        match parseSignedDigits rr with
        | some e => decToBits neg m (dp0 + e)
        | none => none
      else none

/-- Hexadecimal float syntax after the sign and `0x` prefix: hex digits with
at most one dot and a mandatory signed binary `p`/`P` exponent. -/
def parseHexFloat (neg : Bool) (u : List Nat) : Option Nat :=
  let ip := u.takeWhile isHexDigit
  let r1 := u.drop ip.length
  let fr : List Nat × List Nat := match r1 with
    | 46 :: rr => (rr.takeWhile isHexDigit, rr.drop (rr.takeWhile isHexDigit).length)
    | _ => ([], r1)
  if ip.isEmpty && fr.1.isEmpty then none
  else
    match fr.2 with
    | c :: rr =>
      if asciiLower c == 112 then
        match parseSignedDigits rr with
        | some e =>
          let m := digitsToNat 16 (ip ++ fr.1)
          let e2 : Int := e - 4 * (fr.1.length : Int)
          if 0 ≤ e2 then floatBitsOfRat neg (m * 2 ^ e2.toNat) 1
          else floatBitsOfRat neg m (2 ^ (-e2).toNat)
        | none => none
      else none
    | [] => none

/-- Model of Go `strconv.ParseFloat(s, 64)` on byte strings: special values,
then decimal or hexadecimal literal syntax with digit-separating underscores,
correctly rounded, `none` on malformed input or overflow to infinity (the
caller in box.go treats any error as a parse failure). -/
def parseFloat (s : List Nat) : Option Nat :=
  match parseFloatSpecial s with
  | some b => some b
  | none =>
    if s.contains 95 && !underscoreOK s then none
    else
      let t := s.filter (fun c => c != 95)
      let sg := splitSign t
      match sg.2 with
      | 48 :: x :: r =>
        if asciiLower x == 120 then parseHexFloat sg.1 r else parseDecFloat sg.1 sg.2
      | _ => parseDecFloat sg.1 sg.2

/-- Bytes of a Lean string literal (used only to state concrete inputs). -/
def sb (s : String) : List Nat := s.data.map Char.toNat

/-- The five primitive sentinel addresses `&primTypes[0] .. &primTypes[4]`
(box.go lines 16-24). -/
inductive PrimT where
  | boolT
  | int64T
  | uint64T
  | float64T
  | custBitsT
deriving DecidableEq

/-- Go slice header for `[]byte`: contents, capacity, and whether the data
pointer is nil (true exactly for the nil slice; `[]byte{}` has a non-nil
pointer to the runtime zero base). -/
structure GoSlice where
  data : List Nat
  xcap : Nat
  ptrNil : Bool
deriving DecidableEq

/-- An arbitrary value outside the primitive/text/bytes closure, as seen
through the `any` interface: `typAddr` is the address of its runtime type
descriptor, `dataNil` says whether the interface data word is the nil pointer
(true for a nil pointer/map/func boxed in an interface), `render` is its
`fmt.Sprint` text, and the four `Cap` fields model the optional
`Bool()/Int64()/Uint64()/Float64()` conversion methods (box.go lines 91-96):
`some r` means the method exists and returns `r`. -/
structure OtherVal where
  typAddr : Nat
  dataNil : Bool
  render : List Nat
  boolCap : Option Bool
  int64Cap : Option Int
  uint64Cap : Option Nat
  float64Cap : Option Nat
deriving DecidableEq

/-- A Go `any` value as classified by the type switches in box.go: the exact
dynamic types the code branches on (`string`, `[]byte`, the scalar kinds that
`primToAny` can produce, `*taggedString`) plus the opaque remainder.  The
fixed-width integer kinds accepted by `Any` (int8..uintptr, float32) are
omitted: `Any` immediately widens them to int64/uint64/float64. -/
inductive GoAny where
  | aNil
  | aString (s : List Nat)
  | aBytes (b : GoSlice)
  | aBool (t : Bool)
  | aInt64 (x : Int)
  | aUint64 (n : Nat)
  | aFloat64 (bits : Nat)
  | aTagged (tag : Nat) (s : List Nat)
  | aOther (o : OtherVal)
deriving DecidableEq

/-- The pointer word `W1` of a boxed value.  Non-sentinel pointers carry their
pointee: `strData bs` is an address of byte storage holding `bs` (two such
pointers can be equal in the machine exactly when the storages alias, e.g. a
string and a byte slice over the same buffer), `ifaceData v` is the data word
of an interface holding `v`, and `anyRec v` is a heap pointer to an `any`
record holding `v`. -/
inductive Ptr where
  | null
  | prim (k : PrimT)
  | strData (bs : List Nat)
  | ifaceData (v : GoAny)
  | anyRec (v : GoAny)
deriving DecidableEq

/-- The boxed value: extension word `ext` (W0) and tag/pointer word `ptr`
(W1), box.go lines 31-35. -/
structure Value where
  ext : Nat
  ptr : Ptr
deriving DecidableEq

/-- The two test-only force switches (box.go lines 115-116), passed explicitly
to the constructors since the model has no global mutable state. -/
structure Config where
  forceIfaceStrs : Bool
  forceIfacePtrs : Bool
deriving DecidableEq

/-- Default configuration: both force switches off. -/
def cfg0 : Config := ⟨false, false⟩

/-- Representative type-descriptor addresses of the fixed dynamic types; Go
places them in static data, far below 2^56.  Only their distinctness and
range matter. -/
def typeAddrOf : GoAny → Nat
  | .aNil => 0
  | .aString _ => 0x1010
  | .aBytes _ => 0x1020
  | .aBool _ => 0x1030
  | .aInt64 _ => 0x1040
  | .aUint64 _ => 0x1050
  | .aFloat64 _ => 0x1060
  | .aTagged _ _ => 0x1070
  | .aOther o => o.typAddr

/-- Interface data word of an `any` value: nil exactly when the boxed value is
a pointer-shaped nil (`OtherVal.dataNil`); every other value's data word
points at its (non-nil) storage. -/
def ifaceDataPtr : GoAny → Ptr
  | .aOther o => if o.dataNil then .null else .ifaceData (.aOther o)
  | v => .ifaceData v

/-- Model of `isPrim` (box.go lines 26-29): nil or an address inside the
sentinel range `[&primTypes[0], &primTypes[4]]`. -/
def isPrimPtr : Ptr → Bool
  | .null => true
  | .prim _ => true
  | _ => false

/-- Inline non-primitive tags (box.go lines 118-125). -/
def ptrString : Nat := 1

/-- Inline bytes tag. -/
def ptrBytes : Nat := 2

/-- Fast escape-path tag. -/
def ptrIface : Nat := 3

/-- Slow escape-path tag. -/
def ptrIfacePtr : Nat := 4

/-- Maximum length for strings or byte slices (box.go line 110). -/
def maxLen : Nat := 0x7FFFFFFF

/-- Maximum spare capacity above the length for byte slices (box.go line 113). -/
def maxCap : Nat := 0x7FFFFF

/-- Model of `toIface` (box.go lines 173-186).  `ext = (typ << 8) | 3` is
written arithmetically: the descriptor occupies bits 8.. and the tag the low
byte, so the bitwise or is an addition.  The `psave` call only roots the
descriptor for the garbage collector and has no observable effect. -/
def toIface (cfg : Config) (v : GoAny) : Value :=
  let typ := typeAddrOf v
  if !cfg.forceIfacePtrs && typ < 0x100000000000000 then
    ⟨typ * 0x100 + ptrIface, ifaceDataPtr v⟩
  else
    ⟨ptrIfacePtr, .anyRec v⟩

/-- Model of `Nil` (box.go lines 37-41). -/
def boxNil : Value := ⟨0, .null⟩

/-- Model of `Bool` (box.go lines 43-46): the byte of a Go bool is 1/0. -/
def boxBool (t : Bool) : Value := ⟨if t then 1 else 0, .prim .boolT⟩

/-- Model of `Int64` (box.go lines 48-51). -/
def boxInt64 (x : Int) : Value := ⟨u64ofInt x, .prim .int64T⟩

/-- Model of `Uint64` (box.go lines 53-56). -/
def boxUint64 (n : Nat) : Value := ⟨n, .prim .uint64T⟩

/-- Model of `Float64` (box.go lines 58-61): floats are already represented by
their bit pattern, so `math.Float64bits` is the identity here. -/
def boxFloat64 (bits : Nat) : Value := ⟨bits, .prim .float64T⟩

/-- Model of `CustomBits` (box.go lines 63-66). -/
def boxCustomBits (n : Nat) : Value := ⟨n, .prim .custBitsT⟩

/-- Data pointer of a Go string value: nil for the zero string (the model
maps every empty string to a nil pointer, as for `""` literals and zero
values; an empty string produced by slicing may in reality retain a non-nil
interior pointer, a provenance the abstract string value cannot express). -/
def strPtr (s : List Nat) : Ptr := if s.isEmpty then .null else .strData s

/-- Model of `String` (box.go lines 127-137): `ext = (len << 32) | 1`. -/
def boxString (cfg : Config) (s : List Nat) : Value :=
  if cfg.forceIfaceStrs = true ∨ maxLen < s.length then toIface cfg (.aString s)
  else ⟨s.length * 0x100000000 + ptrString, strPtr s⟩

/-- Model of `StringWithTag` (box.go lines 148-157):
`ext = (len << 32) | (tag << 8) | 1`, or a `taggedString` wrapper on the
escape path. -/
def boxStringWithTag (cfg : Config) (s : List Nat) (tag : Nat) : Value :=
  if cfg.forceIfaceStrs = true ∨ maxLen < s.length then toIface cfg (.aTagged tag s)
  else ⟨s.length * 0x100000000 + tag * 0x100 + ptrString, strPtr s⟩

/-- Data pointer of a byte-slice header. -/
def slicePtr (b : GoSlice) : Ptr := if b.ptrNil then .null else .strData b.data

/-- Model of `Bytes` (box.go lines 159-171):
`ext = (len << 32) | (cap-len) << 8 | 2`.  The capacity subtraction is on Go
uint64 values with `cap ≥ len` for every real slice; natural subtraction
agrees there. -/
def boxBytes (cfg : Config) (b : GoSlice) : Value :=
  if cfg.forceIfaceStrs = true ∨ maxLen < b.data.length ∨
      maxCap < b.xcap - b.data.length then toIface cfg (.aBytes b)
  else
    ⟨b.data.length * 0x100000000 + (b.xcap - b.data.length) * 0x100 + ptrBytes,
      slicePtr b⟩

/-- Model of `Any` (box.go lines 188-227): the recognized kinds route to their
zero-allocation constructors, everything else to `toIface`. -/
def boxAny (cfg : Config) : GoAny → Value
  | .aNil => boxNil
  | .aString s => boxString cfg s
  | .aBytes b => boxBytes cfg b
  | .aBool t => boxBool t
  | .aInt64 x => boxInt64 x
  | .aUint64 n => boxUint64 n
  | .aFloat64 f => boxFloat64 f
  | .aTagged t s => toIface cfg (.aTagged t s)
  | .aOther o => toIface cfg (.aOther o)

/-- Model of `Value.isPrim` (box.go lines 229-231). -/
def Value.isPrim (v : Value) : Bool := isPrimPtr v.ptr

/-- Model of `Value.assertString` (box.go lines 233-238): reads
`len = ext >> 32` bytes from the data pointer. -/
def Value.assertString (v : Value) : List Nat :=
  match v.ptr with
  | .strData bs => bs.take (v.ext / 0x100000000)
  | _ => []

/-- Model of `Value.assertBytes` (box.go lines 240-248): `len = ext >> 32`,
`cap = len + ((ext >> 8) & maxCap)`; the reconstructed slice has a non-nil
data pointer exactly when the stored one was non-nil. -/
def Value.assertBytes (v : Value) : GoSlice :=
  let blen := v.ext / 0x100000000
  let bcap := v.ext / 0x100 % 0x800000
  match v.ptr with
  | .strData bs => ⟨bs.take blen, blen + bcap, false⟩
  | _ => ⟨[], blen + bcap, true⟩

/-- Model of `Value.assertIface` (box.go lines 254-259): rebuilds the `any`
from the descriptor in `ext >> 8` and the data word; the guard in `toIface`
kept the descriptor un-truncated, so reconstruction returns the boxed value
carried by the data word. -/
def Value.assertIface (v : Value) : GoAny :=
  match v.ptr with
  | .ifaceData a => a
  | _ => .aNil

/-- Model of `Value.assertIfacePtr` (box.go lines 250-252). -/
def Value.assertIfacePtr (v : Value) : GoAny :=
  match v.ptr with
  | .anyRec a => a
  | _ => .aNil

/-- Model of `Value.assertNonPrimAny` (box.go lines 316-327). -/
def Value.assertNonPrimAny (v : Value) : GoAny :=
  if v.ext % 0x100 = ptrIface then v.assertIface
  else if v.ext % 0x100 = ptrIfacePtr then v.assertIfacePtr
  else if v.ext % 0x100 = ptrString then .aString v.assertString
  else .aBytes v.assertBytes

/-- Rendering of a byte slice by `fmt.Sprint`: "[1 2 3]". -/
def sprintBytes (l : List Nat) : List Nat :=
  91 :: (List.intercalate [32] (l.map natDecDigits)) ++ [93]

/-- Model of `fmt.Sprint` on the dynamic kinds of `GoAny`: `*taggedString`
renders through its `String()` method (box.go lines 144-146), an opaque value
through its recorded rendering; the scalar kinds use their `%v` forms (for
floats the `%g` exponent switch for very large/small magnitudes is not
modelled — scalars never reach the escape path through this package's
constructors). -/
def sprintAny : GoAny → List Nat
  | .aNil => [60, 110, 105, 108, 62]
  | .aString s => s
  | .aBytes b => sprintBytes b.data
  | .aBool t => formatBool t
  | .aInt64 x => formatInt x
  | .aUint64 n => formatUint n
  | .aFloat64 f => formatFloat f
  | .aTagged _ s => s
  | .aOther o => o.render

/-- Model of `Value.primToString` (box.go lines 341-355). -/
def Value.primToString (v : Value) : List Nat :=
  match v.ptr with
  | .prim .boolT => formatBool (v.ext != 0)
  | .prim .int64T => formatInt (i64ofU64 v.ext)
  | .prim .uint64T => formatUint v.ext
  | .prim .float64T => formatFloat v.ext
  | .prim .custBitsT => formatUint v.ext
  | _ => []

/-- Model of `Value.primToAny` (box.go lines 357-371); note custom bits come
back as a plain `uint64`. -/
def Value.primToAny (v : Value) : GoAny :=
  match v.ptr with
  | .prim .boolT => .aBool (v.ext != 0)
  | .prim .int64T => .aInt64 (i64ofU64 v.ext)
  | .prim .uint64T => .aUint64 v.ext
  | .prim .float64T => .aFloat64 v.ext
  | .prim .custBitsT => .aUint64 v.ext
  | _ => .aNil

/-- Interface value read by the escape-path branches of `Value.String` and
`Value.Bytes` (box.go lines 270-275, 299-304): `nil` when neither tag
matches. -/
def Value.ifaceVal (v : Value) : GoAny :=
  if v.ext % 0x100 = ptrIface then v.assertIface
  else if v.ext % 0x100 = ptrIfacePtr then v.assertIfacePtr
  else .aNil

/-- Model of `Value.String` (box.go lines 261-285). -/
def Value.String (v : Value) : List Nat :=
  if !v.isPrim then
    if v.ext % 0x100 = ptrString then v.assertString
    else if v.ext % 0x100 = ptrBytes then (v.assertBytes).data
    else
      match v.ifaceVal with
      | .aBytes b => b.data
      | .aString s => s
      | vf => sprintAny vf
  else v.primToString

/-- Model of `Value.primToBytes` (box.go lines 337-339): `[]byte(string)`
copies, yielding capacity = length and a fresh non-nil pointer (nil only for
the empty copy). -/
def Value.primToBytes (v : Value) : GoSlice :=
  ⟨v.primToString, v.primToString.length, v.primToString.isEmpty⟩

/-- Model of `Value.Bytes` (box.go lines 287-314). -/
def Value.Bytes (v : Value) : GoSlice :=
  if !v.isPrim then
    if v.ext % 0x100 = ptrBytes then v.assertBytes
    else if v.ext % 0x100 = ptrString then
      ⟨v.assertString, v.assertString.length, v.assertString.isEmpty⟩
    else
      match v.ifaceVal with
      | .aBytes b => b
      | .aString s => ⟨s, s.length, s.isEmpty⟩
      | vf => ⟨sprintAny vf, (sprintAny vf).length, (sprintAny vf).isEmpty⟩
  else v.primToBytes

/-- Model of `Value.Any` (box.go lines 329-335). -/
def Value.Any (v : Value) : GoAny :=
  if !v.isPrim then v.assertNonPrimAny else v.primToAny

/-- Model of `Value.IsNil` (box.go line 574). -/
def Value.IsNil (v : Value) : Bool := v.ptr = Ptr.null

/-- Model of `Value.IsString` (box.go lines 543-556). -/
def Value.IsString (v : Value) : Bool :=
  if v.isPrim then false
  else if v.ext % 0x100 = ptrString then true
  else if v.ext % 0x100 = ptrBytes then false
  else match v.assertNonPrimAny with
    | .aString _ => true
    | _ => false

/-- Model of `Value.IsBytes` (box.go lines 558-571). -/
def Value.IsBytes (v : Value) : Bool :=
  if v.isPrim then false
  else if v.ext % 0x100 = ptrBytes then true
  else if v.ext % 0x100 = ptrString then false
  else match v.assertNonPrimAny with
    | .aBytes _ => true
    | _ => false

/-- Model of `Value.toFloat64` (box.go lines 381-414): the escape-path type
switch parses `string`/`[]byte` payloads, prefers the `Float64()` capability
of an opaque value, and otherwise yields `math.NaN()`. -/
def Value.toFloat64 (v : Value) : Nat :=
  match v.ptr with
  | .null => 0
  | .prim .boolT => if v.ext = 0 then 0 else 0x3FF0000000000000
  | .prim .int64T => intToF64 (i64ofU64 v.ext)
  | .prim .uint64T => natToF64 v.ext
  | .prim .float64T => v.ext
  | .prim .custBitsT => natToF64 v.ext
  | _ =>
    match v.assertNonPrimAny with
    | .aString s => match parseFloat s with | some x => x | none => goNaNBits
    | .aBytes b => match parseFloat b.data with | some x => x | none => goNaNBits
    | .aOther o => match o.float64Cap with | some c => c | none => goNaNBits
    | _ => goNaNBits

/-- Model of `Value.Float64` (box.go lines 373-379). -/
def Value.Float64 (v : Value) : Nat :=
  if v.ptr = Ptr.prim .float64T then v.ext else v.toFloat64

/-- Model of `Value.toUint64` (box.go lines 424-457). -/
def Value.toUint64 (v : Value) : Nat :=
  match v.ptr with
  | .null => 0
  | .prim .boolT => if v.ext = 0 then 0 else 1
  | .prim .int64T => v.ext
  | .prim .uint64T => v.ext
  | .prim .float64T => f64ToU64 v.ext
  | .prim .custBitsT => v.ext
  | _ =>
    match v.assertNonPrimAny with
    | .aString s => match parseUint s with | some x => x | none => 0
    | .aBytes b => match parseUint b.data with | some x => x | none => 0
    | .aOther o => match o.uint64Cap with | some c => c | none => 0
    | _ => 0

/-- Model of `Value.Uint64` (box.go lines 416-422). -/
def Value.Uint64 (v : Value) : Nat :=
  if v.ptr = Ptr.prim .uint64T then v.ext else v.toUint64

/-- Model of `Value.toInt64` (box.go lines 467-499). -/
def Value.toInt64 (v : Value) : Int :=
  match v.ptr with
  | .null => 0
  | .prim .boolT => if v.ext = 0 then 0 else 1
  | .prim .int64T => i64ofU64 v.ext
  | .prim .uint64T => i64ofU64 v.ext
  | .prim .float64T => f64ToI64 v.ext
  | .prim .custBitsT => i64ofU64 v.ext
  | _ =>
    match v.assertNonPrimAny with
    | .aString s => match parseInt s with | some x => x | none => 0
    | .aBytes b => match parseInt b.data with | some x => x | none => 0
    | .aOther o => match o.int64Cap with | some c => c | none => 0
    | _ => 0

/-- Model of `Value.Int64` (box.go lines 459-465). -/
def Value.Int64 (v : Value) : Int :=
  if v.ptr = Ptr.prim .int64T then i64ofU64 v.ext else v.toInt64

/-- Model of `Value.toBool` (box.go lines 510-541): the float branch is
`x > 0 || x < 0` under IEEE-754 comparison, so every NaN coerces to false. -/
def Value.toBool (v : Value) : Bool :=
  match v.ptr with
  | .null => false
  | .prim .boolT => v.ext != 0
  | .prim .int64T => v.ext != 0
  | .prim .uint64T => v.ext != 0
  | .prim .float64T => f64Lt 0 v.ext || f64Lt v.ext 0
  | .prim .custBitsT => v.ext != 0
  | _ =>
    match v.assertNonPrimAny with
    | .aString s => match parseBool s with | some x => x | none => false
    | .aBytes b => match parseBool b.data with | some x => x | none => false
    | .aOther o => match o.boolCap with | some c => c | none => false
    | _ => false

/-- Model of `Value.Bool` (box.go lines 502-508): the fast path reinterprets
the low byte of `ext` as a Go bool. -/
def Value.Bool (v : Value) : Bool :=
  if v.ptr = Ptr.prim .boolT then v.ext % 0x100 != 0 else v.toBool

/-- Model of `Value.Tag` (box.go lines 663-679): `uint16(ext >> 8)` for
inline text, the `taggedString` tag on the escape path, otherwise 0. -/
def Value.Tag (v : Value) : Nat :=
  if v.isPrim then 0
  else if v.ext % 0x100 = ptrString then v.ext / 0x100 % 0x10000
  else if v.ext % 0x100 = ptrBytes then 0
  else match v.assertNonPrimAny with
    | .aTagged t _ => t
    | _ => 0

/-- The ten payload kinds a boxed value can be in. -/
inductive Kind where
  | knil
  | kbool
  | kint64
  | kuint64
  | kfloat64
  | kcustom
  | ktext
  | kbytes
  | kifaceInline
  | kifaceBoxed
deriving DecidableEq

/-- The discriminant as every accessor computes it: primitives are recognized
from the pointer word alone (`isPrim` plus sentinel identity, box.go lines
341-355 and 357-371); non-primitives from the low byte of the extension word
(box.go lines 261-285 and 316-327). -/
def kindOf (v : Value) : Kind :=
  match v.ptr with
  | .null => .knil
  | .prim .boolT => .kbool
  | .prim .int64T => .kint64
  | .prim .uint64T => .kuint64
  | .prim .float64T => .kfloat64
  | .prim .custBitsT => .kcustom
  | _ =>
    if v.ext % 0x100 = ptrString then .ktext
    else if v.ext % 0x100 = ptrBytes then .kbytes
    else if v.ext % 0x100 = ptrIface then .kifaceInline
    else .kifaceBoxed

/-- Scalar coercion of a reconstructed escape-path value to int64: the type
switch of `toInt64` (parse text/bytes, prefer the `Int64()` capability,
default 0). -/
def anyInt64 : GoAny → Int
  | .aString s => match parseInt s with | some x => x | none => 0
  | .aBytes b => match parseInt b.data with | some x => x | none => 0
  | .aOther o => match o.int64Cap with | some c => c | none => 0
  | _ => 0

/-- Scalar coercion of a reconstructed escape-path value to uint64. -/
def anyUint64 : GoAny → Nat
  | .aString s => match parseUint s with | some x => x | none => 0
  | .aBytes b => match parseUint b.data with | some x => x | none => 0
  | .aOther o => match o.uint64Cap with | some c => c | none => 0
  | _ => 0

/-- Scalar coercion of a reconstructed escape-path value to float64 bits. -/
def anyFloat64 : GoAny → Nat
  | .aString s => match parseFloat s with | some x => x | none => goNaNBits
  | .aBytes b => match parseFloat b.data with | some x => x | none => goNaNBits
  | .aOther o => match o.float64Cap with | some c => c | none => goNaNBits
  | _ => goNaNBits

/-- Scalar coercion of a reconstructed escape-path value to bool. -/
def anyBool : GoAny → Bool
  | .aString s => match parseBool s with | some x => x | none => false
  | .aBytes b => match parseBool b.data with | some x => x | none => false
  | .aOther o => match o.boolCap with | some c => c | none => false
  | _ => false

/-- Text form of a reconstructed escape-path value as produced by the
`Value.String`/`Value.Bytes` type switches. -/
def anyToText : GoAny → List Nat
  | .aBytes b => b.data
  | .aString s => s
  | a => sprintAny a

/-- Tag of a reconstructed escape-path value: nonzero only for
`*taggedString`. -/
def anyTag : GoAny → Nat
  | .aTagged t _ => t
  | _ => 0

/-- Dynamic string test of a reconstructed escape-path value. -/
def anyIsStr : GoAny → Bool
  | .aString _ => true
  | _ => false

/-- Dynamic byte-slice test of a reconstructed escape-path value. -/
def anyIsBytes : GoAny → Bool
  | .aBytes _ => true
  | _ => false

/-- Whether a boxed value carries an escape-path representation (low byte of
the extension word is the `ptrIface` or `ptrIfacePtr` tag). -/
def bytesEscaped (v : Value) : Bool :=
  decide (v.ext % 0x100 = 3) || decide (v.ext % 0x100 = 4)

/-- Bit-level discriminant classes that are primitive. -/
def primKindB : Kind → Bool
  | .knil | .kbool | .kint64 | .kuint64 | .kfloat64 | .kcustom => true
  | _ => false


/-- The three shapes a boxed string can take: inline, fast escape, slow
escape. -/
theorem boxString_forms (cfg : Config) (s : List Nat) :
    boxString cfg s = ⟨s.length * 0x100000000 + 1, strPtr s⟩ ∨
    boxString cfg s = ⟨0x101003, .ifaceData (.aString s)⟩ ∨
    boxString cfg s = ⟨4, .anyRec (.aString s)⟩ := by
  unfold boxString toIface typeAddrOf ifaceDataPtr ptrString ptrIface ptrIfacePtr
  by_cases h : cfg.forceIfaceStrs = true ∨ maxLen < s.length
  · rw [if_pos h]
    by_cases h2 : cfg.forceIfacePtrs = true
    · right; right; simp only [h2, Bool.not_true, Bool.false_and, if_neg]; norm_num
    · right; left; simp only [h2, Bool.not_false, Bool.true_and]; norm_num
  · rw [if_neg h]; left; rfl

/-- The three shapes a boxed byte slice can take, with the bound facts on the
inline shape. -/
theorem boxBytes_forms (cfg : Config) (b : GoSlice) :
    (b.data.length ≤ maxLen ∧ b.xcap - b.data.length ≤ maxCap ∧
      boxBytes cfg b =
        ⟨b.data.length * 0x100000000 + (b.xcap - b.data.length) * 0x100 + 2,
          slicePtr b⟩) ∨
    boxBytes cfg b = ⟨0x102003, .ifaceData (.aBytes b)⟩ ∨
    boxBytes cfg b = ⟨4, .anyRec (.aBytes b)⟩ := by
  unfold boxBytes toIface typeAddrOf ifaceDataPtr ptrBytes ptrIface ptrIfacePtr
  by_cases h : cfg.forceIfaceStrs = true ∨ maxLen < b.data.length ∨
      maxCap < b.xcap - b.data.length
  · rw [if_pos h]
    by_cases h2 : cfg.forceIfacePtrs = true
    · right; right; simp only [h2, Bool.not_true, Bool.false_and, if_neg]; norm_num
    · right; left; simp only [h2, Bool.not_false, Bool.true_and]; norm_num
  · rw [if_neg h]
    left
    refine ⟨by omega, by omega, rfl⟩

/-- The three shapes a boxed tagged string can take. -/
theorem boxStringWithTag_forms (cfg : Config) (s : List Nat) (tag : Nat) :
    boxStringWithTag cfg s tag =
      ⟨s.length * 0x100000000 + tag * 0x100 + 1, strPtr s⟩ ∨
    boxStringWithTag cfg s tag = ⟨0x107003, .ifaceData (.aTagged tag s)⟩ ∨
    boxStringWithTag cfg s tag = ⟨4, .anyRec (.aTagged tag s)⟩ := by
  unfold boxStringWithTag toIface typeAddrOf ifaceDataPtr ptrString ptrIface ptrIfacePtr
  by_cases h : cfg.forceIfaceStrs = true ∨ maxLen < s.length
  · rw [if_pos h]
    by_cases h2 : cfg.forceIfacePtrs = true
    · right; right; simp only [h2, Bool.not_true, Bool.false_and, if_neg]; norm_num
    · right; left; simp only [h2, Bool.not_false, Bool.true_and]; norm_num
  · rw [if_neg h]; left; rfl

/-- Non-primitive scalar accessors factor through `assertNonPrimAny`. -/
theorem toInt64_nonprim (e : Nat) (p : Ptr) (h : isPrimPtr p = false) :
    Value.toInt64 ⟨e, p⟩ = anyInt64 (Value.assertNonPrimAny ⟨e, p⟩) := by
  cases p <;> simp [isPrimPtr] at h <;> unfold Value.toInt64 <;>
    (generalize Value.assertNonPrimAny _ = X) <;> cases X <;> rfl

/-- Non-primitive uint64 coercion factors through `assertNonPrimAny`. -/
theorem toUint64_nonprim (e : Nat) (p : Ptr) (h : isPrimPtr p = false) :
    Value.toUint64 ⟨e, p⟩ = anyUint64 (Value.assertNonPrimAny ⟨e, p⟩) := by
  cases p <;> simp [isPrimPtr] at h <;> unfold Value.toUint64 <;>
    (generalize Value.assertNonPrimAny _ = X) <;> cases X <;> rfl

/-- Non-primitive float64 coercion factors through `assertNonPrimAny`. -/
theorem toFloat64_nonprim (e : Nat) (p : Ptr) (h : isPrimPtr p = false) :
    Value.toFloat64 ⟨e, p⟩ = anyFloat64 (Value.assertNonPrimAny ⟨e, p⟩) := by
  cases p <;> simp [isPrimPtr] at h <;> unfold Value.toFloat64 <;>
    (generalize Value.assertNonPrimAny _ = X) <;> cases X <;> rfl

/-- Non-primitive bool coercion factors through `assertNonPrimAny`. -/
theorem toBool_nonprim (e : Nat) (p : Ptr) (h : isPrimPtr p = false) :
    Value.toBool ⟨e, p⟩ = anyBool (Value.assertNonPrimAny ⟨e, p⟩) := by
  cases p <;> simp [isPrimPtr] at h <;> unfold Value.toBool <;>
    (generalize Value.assertNonPrimAny _ = X) <;> cases X <;> rfl

/-- A non-primitive pointer is not a sentinel. -/
theorem nonprim_ne_prim (p : Ptr) (k : PrimT) (h : isPrimPtr p = false) :
    ¬ p = Ptr.prim k := by
  cases p <;> simp [isPrimPtr] at h <;> simp

/-- The int64 accessor on a non-primitive value. -/
theorem Int64_shape (e : Nat) (p : Ptr) (h : isPrimPtr p = false) :
    Value.Int64 ⟨e, p⟩ = anyInt64 (Value.assertNonPrimAny ⟨e, p⟩) := by
  unfold Value.Int64
  rw [if_neg (nonprim_ne_prim p .int64T h)]
  exact toInt64_nonprim e p h

/-- The uint64 accessor on a non-primitive value. -/
theorem Uint64_shape (e : Nat) (p : Ptr) (h : isPrimPtr p = false) :
    Value.Uint64 ⟨e, p⟩ = anyUint64 (Value.assertNonPrimAny ⟨e, p⟩) := by
  unfold Value.Uint64
  rw [if_neg (nonprim_ne_prim p .uint64T h)]
  exact toUint64_nonprim e p h

/-- The float64 accessor on a non-primitive value. -/
theorem Float64_shape (e : Nat) (p : Ptr) (h : isPrimPtr p = false) :
    Value.Float64 ⟨e, p⟩ = anyFloat64 (Value.assertNonPrimAny ⟨e, p⟩) := by
  unfold Value.Float64
  rw [if_neg (nonprim_ne_prim p .float64T h)]
  exact toFloat64_nonprim e p h

/-- The bool accessor on a non-primitive value. -/
theorem Bool_shape (e : Nat) (p : Ptr) (h : isPrimPtr p = false) :
    Value.Bool ⟨e, p⟩ = anyBool (Value.assertNonPrimAny ⟨e, p⟩) := by
  unfold Value.Bool
  rw [if_neg (nonprim_ne_prim p .boolT h)]
  exact toBool_nonprim e p h

/-- The erased-value accessor on a non-primitive value. -/
theorem Any_shape (e : Nat) (p : Ptr) (h : isPrimPtr p = false) :
    Value.Any ⟨e, p⟩ = Value.assertNonPrimAny ⟨e, p⟩ := by
  unfold Value.Any Value.isPrim
  rw [h]
  rfl

/-- Reconstruction on the fast escape path. -/
theorem anpa_iface (v : Value) (a : GoAny) (hp : v.ptr = .ifaceData a)
    (he : v.ext % 0x100 = 3) : v.assertNonPrimAny = a := by
  unfold Value.assertNonPrimAny ptrIface Value.assertIface
  rw [if_pos he, hp]

/-- Reconstruction on the slow escape path. -/
theorem anpa_anyRec (v : Value) (a : GoAny) (hp : v.ptr = .anyRec a)
    (he : v.ext % 0x100 = 4) : v.assertNonPrimAny = a := by
  unfold Value.assertNonPrimAny ptrIface ptrIfacePtr Value.assertIfacePtr
  rw [if_neg (by omega), if_pos he, hp]

/-- Reconstruction of an inline string. -/
theorem anpa_str (v : Value) (bs : List Nat) (hp : v.ptr = .strData bs)
    (he : v.ext % 0x100 = 1) :
    v.assertNonPrimAny = .aString (bs.take (v.ext / 0x100000000)) := by
  unfold Value.assertNonPrimAny ptrIface ptrIfacePtr ptrString Value.assertString
  rw [if_neg (by omega), if_neg (by omega), if_pos he, hp]

/-- Reconstruction of an inline byte slice. -/
theorem anpa_bytes (v : Value) (bs : List Nat) (hp : v.ptr = .strData bs)
    (he : v.ext % 0x100 = 2) :
    v.assertNonPrimAny =
      .aBytes ⟨bs.take (v.ext / 0x100000000),
        v.ext / 0x100000000 + v.ext / 0x100 % 0x800000, false⟩ := by
  unfold Value.assertNonPrimAny ptrIface ptrIfacePtr ptrString Value.assertBytes
  rw [if_neg (by omega), if_neg (by omega), if_neg (by omega), hp]

/-- The string accessor on an inline string. -/
theorem String_str (v : Value) (bs : List Nat) (hp : v.ptr = .strData bs)
    (he : v.ext % 0x100 = 1) : v.String = bs.take (v.ext / 0x100000000) := by
  have hnp : v.isPrim = false := by unfold Value.isPrim; rw [hp]; rfl
  unfold Value.String ptrString Value.assertString
  rw [hnp]
  simp only [Bool.not_false, if_true]
  rw [if_pos he, hp]

/-- The string accessor on an inline byte slice. -/
theorem String_bytesInline (v : Value) (bs : List Nat) (hp : v.ptr = .strData bs)
    (he : v.ext % 0x100 = 2) : v.String = bs.take (v.ext / 0x100000000) := by
  have hnp : v.isPrim = false := by unfold Value.isPrim; rw [hp]; rfl
  unfold Value.String ptrString ptrBytes Value.assertBytes
  rw [hnp]
  simp only [Bool.not_false, if_true]
  rw [if_neg (by omega), if_pos he, hp]

/-- The string accessor on the fast escape path. -/
theorem String_iface (v : Value) (a : GoAny) (hp : v.ptr = .ifaceData a)
    (he : v.ext % 0x100 = 3) : v.String = anyToText a := by
  have hnp : v.isPrim = false := by unfold Value.isPrim; rw [hp]; rfl
  unfold Value.String ptrString ptrBytes Value.ifaceVal ptrIface Value.assertIface
  rw [hnp]
  simp only [Bool.not_false, if_true]
  rw [if_neg (by omega), if_neg (by omega), if_pos he, hp]
  cases a <;> rfl

/-- The string accessor on the slow escape path. -/
theorem String_anyRec (v : Value) (a : GoAny) (hp : v.ptr = .anyRec a)
    (he : v.ext % 0x100 = 4) : v.String = anyToText a := by
  have hnp : v.isPrim = false := by unfold Value.isPrim; rw [hp]; rfl
  unfold Value.String ptrString ptrBytes Value.ifaceVal ptrIface ptrIfacePtr
    Value.assertIfacePtr
  rw [hnp]
  simp only [Bool.not_false, if_true]
  rw [if_neg (by omega), if_neg (by omega), if_neg (by omega), if_pos he, hp]
  cases a <;> rfl

/-- The byte-slice accessor on an inline string. -/
theorem Bytes_str (v : Value) (bs : List Nat) (hp : v.ptr = .strData bs)
    (he : v.ext % 0x100 = 1) : (v.Bytes).data = bs.take (v.ext / 0x100000000) := by
  have hnp : v.isPrim = false := by unfold Value.isPrim; rw [hp]; rfl
  unfold Value.Bytes ptrString ptrBytes Value.assertString
  rw [hnp]
  simp only [Bool.not_false, if_true]
  rw [if_neg (by omega), if_pos he, hp]

/-- The byte-slice accessor on an inline byte slice. -/
theorem Bytes_bytesInline (v : Value) (bs : List Nat) (hp : v.ptr = .strData bs)
    (he : v.ext % 0x100 = 2) : (v.Bytes).data = bs.take (v.ext / 0x100000000) := by
  have hnp : v.isPrim = false := by unfold Value.isPrim; rw [hp]; rfl
  unfold Value.Bytes ptrBytes Value.assertBytes
  rw [hnp]
  simp only [Bool.not_false, if_true]
  rw [if_pos he, hp]

/-- The byte-slice accessor on the fast escape path. -/
theorem Bytes_iface (v : Value) (a : GoAny) (hp : v.ptr = .ifaceData a)
    (he : v.ext % 0x100 = 3) : (v.Bytes).data = anyToText a := by
  have hnp : v.isPrim = false := by unfold Value.isPrim; rw [hp]; rfl
  unfold Value.Bytes ptrString ptrBytes Value.ifaceVal ptrIface Value.assertIface
  rw [hnp]
  simp only [Bool.not_false, if_true]
  rw [if_neg (by omega), if_neg (by omega), if_pos he, hp]
  cases a <;> rfl

/-- The byte-slice accessor on the slow escape path. -/
theorem Bytes_anyRec (v : Value) (a : GoAny) (hp : v.ptr = .anyRec a)
    (he : v.ext % 0x100 = 4) : (v.Bytes).data = anyToText a := by
  have hnp : v.isPrim = false := by unfold Value.isPrim; rw [hp]; rfl
  unfold Value.Bytes ptrString ptrBytes Value.ifaceVal ptrIface ptrIfacePtr
    Value.assertIfacePtr
  rw [hnp]
  simp only [Bool.not_false, if_true]
  rw [if_neg (by omega), if_neg (by omega), if_neg (by omega), if_pos he, hp]
  cases a <;> rfl

/-- The tag accessor on inline text. -/
theorem Tag_str (v : Value) (bs : List Nat) (hp : v.ptr = .strData bs)
    (he : v.ext % 0x100 = 1) : v.Tag = v.ext / 0x100 % 0x10000 := by
  have hnp : v.isPrim = false := by unfold Value.isPrim; rw [hp]; rfl
  unfold Value.Tag ptrString
  rw [hnp]
  simp only [Bool.false_eq_true, if_false]
  rw [if_pos he]

/-- The tag accessor on inline bytes. -/
theorem Tag_bytesInline (v : Value) (bs : List Nat) (hp : v.ptr = .strData bs)
    (he : v.ext % 0x100 = 2) : v.Tag = 0 := by
  have hnp : v.isPrim = false := by unfold Value.isPrim; rw [hp]; rfl
  unfold Value.Tag ptrString ptrBytes
  rw [hnp]
  simp only [Bool.false_eq_true, if_false]
  rw [if_neg (by omega), if_pos he]

/-- The tag accessor on the fast escape path. -/
theorem Tag_iface (v : Value) (a : GoAny) (hp : v.ptr = .ifaceData a)
    (he : v.ext % 0x100 = 3) : v.Tag = anyTag a := by
  have hnp : v.isPrim = false := by unfold Value.isPrim; rw [hp]; rfl
  unfold Value.Tag ptrString ptrBytes
  rw [hnp]
  simp only [Bool.false_eq_true, if_false]
  rw [if_neg (by omega), if_neg (by omega), anpa_iface v a hp he]
  cases a <;> rfl

/-- The tag accessor on the slow escape path. -/
theorem Tag_anyRec (v : Value) (a : GoAny) (hp : v.ptr = .anyRec a)
    (he : v.ext % 0x100 = 4) : v.Tag = anyTag a := by
  have hnp : v.isPrim = false := by unfold Value.isPrim; rw [hp]; rfl
  unfold Value.Tag ptrString ptrBytes
  rw [hnp]
  simp only [Bool.false_eq_true, if_false]
  rw [if_neg (by omega), if_neg (by omega), anpa_anyRec v a hp he]
  cases a <;> rfl

/-- The string predicate on inline text. -/
theorem IsStr_str (v : Value) (bs : List Nat) (hp : v.ptr = .strData bs)
    (he : v.ext % 0x100 = 1) : v.IsString = true := by
  have hnp : v.isPrim = false := by unfold Value.isPrim; rw [hp]; rfl
  unfold Value.IsString ptrString
  rw [hnp]
  simp only [Bool.false_eq_true, if_false]
  rw [if_pos he]

/-- The string predicate on inline bytes. -/
theorem IsStr_bytesInline (v : Value) (bs : List Nat) (hp : v.ptr = .strData bs)
    (he : v.ext % 0x100 = 2) : v.IsString = false := by
  have hnp : v.isPrim = false := by unfold Value.isPrim; rw [hp]; rfl
  unfold Value.IsString ptrString ptrBytes
  rw [hnp]
  simp only [Bool.false_eq_true, if_false]
  rw [if_neg (by omega), if_pos he]

/-- The string predicate on the fast escape path. -/
theorem IsStr_iface (v : Value) (a : GoAny) (hp : v.ptr = .ifaceData a)
    (he : v.ext % 0x100 = 3) : v.IsString = anyIsStr a := by
  have hnp : v.isPrim = false := by unfold Value.isPrim; rw [hp]; rfl
  unfold Value.IsString ptrString ptrBytes
  rw [hnp]
  simp only [Bool.false_eq_true, if_false]
  rw [if_neg (by omega), if_neg (by omega), anpa_iface v a hp he]
  cases a <;> rfl

/-- The string predicate on the slow escape path. -/
theorem IsStr_anyRec (v : Value) (a : GoAny) (hp : v.ptr = .anyRec a)
    (he : v.ext % 0x100 = 4) : v.IsString = anyIsStr a := by
  have hnp : v.isPrim = false := by unfold Value.isPrim; rw [hp]; rfl
  unfold Value.IsString ptrString ptrBytes
  rw [hnp]
  simp only [Bool.false_eq_true, if_false]
  rw [if_neg (by omega), if_neg (by omega), anpa_anyRec v a hp he]
  cases a <;> rfl

/-- The bytes predicate on inline text. -/
theorem IsBy_str (v : Value) (bs : List Nat) (hp : v.ptr = .strData bs)
    (he : v.ext % 0x100 = 1) : v.IsBytes = false := by
  have hnp : v.isPrim = false := by unfold Value.isPrim; rw [hp]; rfl
  unfold Value.IsBytes ptrString ptrBytes
  rw [hnp]
  simp only [Bool.false_eq_true, if_false]
  rw [if_neg (by omega), if_pos he]

/-- The bytes predicate on inline bytes. -/
theorem IsBy_bytesInline (v : Value) (bs : List Nat) (hp : v.ptr = .strData bs)
    (he : v.ext % 0x100 = 2) : v.IsBytes = true := by
  have hnp : v.isPrim = false := by unfold Value.isPrim; rw [hp]; rfl
  unfold Value.IsBytes ptrBytes
  rw [hnp]
  simp only [Bool.false_eq_true, if_false]
  rw [if_pos he]

/-- The bytes predicate on the fast escape path. -/
theorem IsBy_iface (v : Value) (a : GoAny) (hp : v.ptr = .ifaceData a)
    (he : v.ext % 0x100 = 3) : v.IsBytes = anyIsBytes a := by
  have hnp : v.isPrim = false := by unfold Value.isPrim; rw [hp]; rfl
  unfold Value.IsBytes ptrString ptrBytes
  rw [hnp]
  simp only [Bool.false_eq_true, if_false]
  rw [if_neg (by omega), if_neg (by omega), anpa_iface v a hp he]
  cases a <;> rfl

/-- The bytes predicate on the slow escape path. -/
theorem IsBy_anyRec (v : Value) (a : GoAny) (hp : v.ptr = .anyRec a)
    (he : v.ext % 0x100 = 4) : v.IsBytes = anyIsBytes a := by
  have hnp : v.isPrim = false := by unfold Value.isPrim; rw [hp]; rfl
  unfold Value.IsBytes ptrString ptrBytes
  rw [hnp]
  simp only [Bool.false_eq_true, if_false]
  rw [if_neg (by omega), if_neg (by omega), anpa_anyRec v a hp he]
  cases a <;> rfl

/-- Every accessor on a nil-pointer word: the boxed value behaves as nil
whatever the extension word holds. -/
theorem null_accessors (e : Nat) :
    Value.String ⟨e, .null⟩ = [] ∧ (Value.Bytes ⟨e, .null⟩).data = [] ∧
    Value.Int64 ⟨e, .null⟩ = 0 ∧ Value.Uint64 ⟨e, .null⟩ = 0 ∧
    Value.Float64 ⟨e, .null⟩ = 0 ∧ Value.Bool ⟨e, .null⟩ = false ∧
    Value.Tag ⟨e, .null⟩ = 0 ∧ Value.Any ⟨e, .null⟩ = .aNil ∧
    Value.IsString ⟨e, .null⟩ = false ∧ Value.IsBytes ⟨e, .null⟩ = false := by
  refine ⟨rfl, rfl, ?_, ?_, ?_, ?_, rfl, rfl, rfl, rfl⟩
  · unfold Value.Int64; rw [if_neg (by simp)]; rfl
  · unfold Value.Uint64; rw [if_neg (by simp)]; rfl
  · unfold Value.Float64; rw [if_neg (by simp)]; rfl
  · unfold Value.Bool; rw [if_neg (by simp)]; rfl

/-- Division recovering the length field from a packed extension word. -/
theorem pack_div (n t : Nat) (ht : t < 0x100000000) :
    (n * 0x100000000 + t) / 0x100000000 = n := by omega

/-- The string accessor round-trips through every representation. -/
theorem boxString_String (cfg : Config) (s : List Nat) :
    (boxString cfg s).String = s := by
  rcases boxString_forms cfg s with h | h | h <;> rw [h]
  · cases s with
    | nil => exact (null_accessors _).1
    | cons a t =>
      rw [String_str _ (a :: t) rfl
        (show ((a :: t).length * 0x100000000 + 1) % 0x100 = 1 by omega)]
      exact (pack_div _ 1 (by omega)) ▸ List.take_length (a :: t)
  · rw [String_iface _ (.aString s) rfl (by norm_num)]
    rfl
  · rw [String_anyRec _ (.aString s) rfl (by norm_num)]
    rfl

/-- The bytes accessor on a boxed string yields its bytes. -/
theorem boxString_Bytes (cfg : Config) (s : List Nat) :
    ((boxString cfg s).Bytes).data = s := by
  rcases boxString_forms cfg s with h | h | h <;> rw [h]
  · cases s with
    | nil => exact (null_accessors _).2.1
    | cons a t =>
      rw [Bytes_str _ (a :: t) rfl
        (show ((a :: t).length * 0x100000000 + 1) % 0x100 = 1 by omega)]
      exact (pack_div _ 1 (by omega)) ▸ List.take_length (a :: t)
  · rw [Bytes_iface _ (.aString s) rfl (by norm_num)]
    rfl
  · rw [Bytes_anyRec _ (.aString s) rfl (by norm_num)]
    rfl

/-- The int64 accessor on a boxed string parses the text. -/
theorem boxString_Int64 (cfg : Config) (s : List Nat) :
    (boxString cfg s).Int64 = anyInt64 (.aString s) := by
  rcases boxString_forms cfg s with h | h | h <;> rw [h]
  · cases s with
    | nil => exact (null_accessors _).2.2.1
    | cons a t =>
      rw [show strPtr (a :: t) = Ptr.strData (a :: t) from rfl]
      rw [Int64_shape _ (.strData (a :: t)) rfl,
        anpa_str _ (a :: t) rfl
          (show ((a :: t).length * 0x100000000 + 1) % 0x100 = 1 by omega)]
      rw [show ((a :: t).length * 0x100000000 + 1) / 0x100000000 = (a :: t).length
          from pack_div _ 1 (by omega), List.take_length]
  · rw [Int64_shape _ (.ifaceData (.aString s)) rfl, anpa_iface _ (.aString s) rfl (by norm_num)]
  · rw [Int64_shape _ (.anyRec (.aString s)) rfl, anpa_anyRec _ (.aString s) rfl (by norm_num)]

/-- The uint64 accessor on a boxed string parses the text. -/
theorem boxString_Uint64 (cfg : Config) (s : List Nat) :
    (boxString cfg s).Uint64 = anyUint64 (.aString s) := by
  rcases boxString_forms cfg s with h | h | h <;> rw [h]
  · cases s with
    | nil => exact (null_accessors _).2.2.2.1
    | cons a t =>
      rw [show strPtr (a :: t) = Ptr.strData (a :: t) from rfl]
      rw [Uint64_shape _ (.strData (a :: t)) rfl,
        anpa_str _ (a :: t) rfl
          (show ((a :: t).length * 0x100000000 + 1) % 0x100 = 1 by omega)]
      rw [show ((a :: t).length * 0x100000000 + 1) / 0x100000000 = (a :: t).length
          from pack_div _ 1 (by omega), List.take_length]
  · rw [Uint64_shape _ (.ifaceData (.aString s)) rfl, anpa_iface _ (.aString s) rfl (by norm_num)]
  · rw [Uint64_shape _ (.anyRec (.aString s)) rfl, anpa_anyRec _ (.aString s) rfl (by norm_num)]

/-- The bool accessor on a boxed string parses the text. -/
theorem boxString_Bool (cfg : Config) (s : List Nat) :
    (boxString cfg s).Bool = anyBool (.aString s) := by
  rcases boxString_forms cfg s with h | h | h <;> rw [h]
  · cases s with
    | nil => exact (null_accessors _).2.2.2.2.2.1
    | cons a t =>
      rw [show strPtr (a :: t) = Ptr.strData (a :: t) from rfl]
      rw [Bool_shape _ (.strData (a :: t)) rfl,
        anpa_str _ (a :: t) rfl
          (show ((a :: t).length * 0x100000000 + 1) % 0x100 = 1 by omega)]
      rw [show ((a :: t).length * 0x100000000 + 1) / 0x100000000 = (a :: t).length
          from pack_div _ 1 (by omega), List.take_length]
  · rw [Bool_shape _ (.ifaceData (.aString s)) rfl, anpa_iface _ (.aString s) rfl (by norm_num)]
  · rw [Bool_shape _ (.anyRec (.aString s)) rfl, anpa_anyRec _ (.aString s) rfl (by norm_num)]

/-- The float64 accessor on a nonempty boxed string parses the text (an empty
string has a nil data pointer and degenerates to the nil kind instead). -/
theorem boxString_Float64 (cfg : Config) (s : List Nat) (hs : s ≠ []) :
    (boxString cfg s).Float64 = anyFloat64 (.aString s) := by
  rcases boxString_forms cfg s with h | h | h <;> rw [h]
  · cases s with
    | nil => exact absurd rfl hs
    | cons a t =>
      rw [show strPtr (a :: t) = Ptr.strData (a :: t) from rfl]
      rw [Float64_shape _ (.strData (a :: t)) rfl,
        anpa_str _ (a :: t) rfl
          (show ((a :: t).length * 0x100000000 + 1) % 0x100 = 1 by omega)]
      rw [show ((a :: t).length * 0x100000000 + 1) / 0x100000000 = (a :: t).length
          from pack_div _ 1 (by omega), List.take_length]
  · rw [Float64_shape _ (.ifaceData (.aString s)) rfl, anpa_iface _ (.aString s) rfl (by norm_num)]
  · rw [Float64_shape _ (.anyRec (.aString s)) rfl, anpa_anyRec _ (.aString s) rfl (by norm_num)]

/-- The tag of an untagged boxed string is 0 on every representation. -/
theorem boxString_Tag (cfg : Config) (s : List Nat) :
    (boxString cfg s).Tag = 0 := by
  rcases boxString_forms cfg s with h | h | h <;> rw [h]
  · cases s with
    | nil => exact (null_accessors _).2.2.2.2.2.2.1
    | cons a t =>
      rw [Tag_str _ (a :: t) rfl
        (show ((a :: t).length * 0x100000000 + 1) % 0x100 = 1 by omega)]
      show ((a :: t).length * 0x100000000 + 1) / 0x100 % 0x10000 = 0
      omega
  · rw [Tag_iface _ (.aString s) rfl (by norm_num)]; rfl
  · rw [Tag_anyRec _ (.aString s) rfl (by norm_num)]; rfl

/-- A nonempty boxed string satisfies the string predicate everywhere. -/
theorem boxString_IsString (cfg : Config) (s : List Nat) (hs : s ≠ []) :
    (boxString cfg s).IsString = true := by
  rcases boxString_forms cfg s with h | h | h <;> rw [h]
  · cases s with
    | nil => exact absurd rfl hs
    | cons a t =>
      exact IsStr_str _ (a :: t) rfl
        (show ((a :: t).length * 0x100000000 + 1) % 0x100 = 1 by omega)
  · rw [IsStr_iface _ (.aString s) rfl (by norm_num)]; rfl
  · rw [IsStr_anyRec _ (.aString s) rfl (by norm_num)]; rfl

/-- A boxed string never satisfies the bytes predicate. -/
theorem boxString_IsBytes (cfg : Config) (s : List Nat) :
    (boxString cfg s).IsBytes = false := by
  rcases boxString_forms cfg s with h | h | h <;> rw [h]
  · cases s with
    | nil => exact (null_accessors _).2.2.2.2.2.2.2.2.2
    | cons a t =>
      exact IsBy_str _ (a :: t) rfl
        (show ((a :: t).length * 0x100000000 + 1) % 0x100 = 1 by omega)
  · rw [IsBy_iface _ (.aString s) rfl (by norm_num)]; rfl
  · rw [IsBy_anyRec _ (.aString s) rfl (by norm_num)]; rfl

/-- The bytes accessor round-trips the byte content through every
representation (nil slices require the empty-content invariant). -/
theorem boxBytes_Bytes (cfg : Config) (b : GoSlice)
    (hb : b.ptrNil = true → b.data = []) :
    ((boxBytes cfg b).Bytes).data = b.data := by
  obtain ⟨bd, bc, bn⟩ := b
  rcases boxBytes_forms cfg ⟨bd, bc, bn⟩ with ⟨h1, h2, h⟩ | h | h <;> rw [h]
  · cases bn with
    | true =>
      have hd : bd = [] := hb rfl
      subst hd
      rw [show slicePtr ⟨[], bc, true⟩ = Ptr.null from rfl]
      exact (null_accessors _).2.1
    | false =>
      have h2x : bc - bd.length ≤ 0x7FFFFF := h2
      rw [show slicePtr ⟨bd, bc, false⟩ = Ptr.strData bd from rfl]
      rw [Bytes_bytesInline _ bd rfl
        (show (bd.length * 0x100000000 + (bc - bd.length) * 0x100 + 2) % 0x100 = 2
          by omega)]
      have hdiv : (bd.length * 0x100000000 + (bc - bd.length) * 0x100 + 2) /
          0x100000000 = bd.length := by omega
      rw [hdiv, List.take_length]
  · rw [Bytes_iface _ (.aBytes ⟨bd, bc, bn⟩) rfl (by norm_num)]; rfl
  · rw [Bytes_anyRec _ (.aBytes ⟨bd, bc, bn⟩) rfl (by norm_num)]; rfl

/-- The string accessor on a boxed byte slice returns the byte content. -/
theorem boxBytes_String (cfg : Config) (b : GoSlice)
    (hb : b.ptrNil = true → b.data = []) :
    (boxBytes cfg b).String = b.data := by
  obtain ⟨bd, bc, bn⟩ := b
  rcases boxBytes_forms cfg ⟨bd, bc, bn⟩ with ⟨h1, h2, h⟩ | h | h <;> rw [h]
  · cases bn with
    | true =>
      have hd : bd = [] := hb rfl
      subst hd
      rw [show slicePtr ⟨[], bc, true⟩ = Ptr.null from rfl]
      exact (null_accessors _).1
    | false =>
      have h2x : bc - bd.length ≤ 0x7FFFFF := h2
      rw [show slicePtr ⟨bd, bc, false⟩ = Ptr.strData bd from rfl]
      rw [String_bytesInline _ bd rfl
        (show (bd.length * 0x100000000 + (bc - bd.length) * 0x100 + 2) % 0x100 = 2
          by omega)]
      have hdiv : (bd.length * 0x100000000 + (bc - bd.length) * 0x100 + 2) /
          0x100000000 = bd.length := by omega
      rw [hdiv, List.take_length]
  · rw [String_iface _ (.aBytes ⟨bd, bc, bn⟩) rfl (by norm_num)]; rfl
  · rw [String_anyRec _ (.aBytes ⟨bd, bc, bn⟩) rfl (by norm_num)]; rfl

/-- The int64 accessor on a boxed byte slice parses the bytes. -/
theorem boxBytes_Int64 (cfg : Config) (b : GoSlice)
    (hb : b.ptrNil = true → b.data = []) :
    (boxBytes cfg b).Int64 = anyInt64 (.aBytes b) := by
  obtain ⟨bd, bc, bn⟩ := b
  rcases boxBytes_forms cfg ⟨bd, bc, bn⟩ with ⟨h1, h2, h⟩ | h | h <;> rw [h]
  · cases bn with
    | true =>
      have hd : bd = [] := hb rfl
      subst hd
      rw [show slicePtr ⟨[], bc, true⟩ = Ptr.null from rfl]
      rw [(null_accessors _).2.2.1]
      rfl
    | false =>
      have h2x : bc - bd.length ≤ 0x7FFFFF := h2
      rw [show slicePtr ⟨bd, bc, false⟩ = Ptr.strData bd from rfl]
      rw [Int64_shape _ (.strData bd) rfl,
        anpa_bytes _ bd rfl (show (bd.length * 0x100000000 + (bc - bd.length) * 0x100 + 2) % 0x100 = 2 by omega)]
      have hdiv : (bd.length * 0x100000000 + (bc - bd.length) * 0x100 + 2) /
          0x100000000 = bd.length := by omega
      rw [hdiv, List.take_length]
      rfl
  · rw [Int64_shape _ (.ifaceData (.aBytes ⟨bd, bc, bn⟩)) rfl,
      anpa_iface _ (.aBytes ⟨bd, bc, bn⟩) rfl (by norm_num)]
  · rw [Int64_shape _ (.anyRec (.aBytes ⟨bd, bc, bn⟩)) rfl,
      anpa_anyRec _ (.aBytes ⟨bd, bc, bn⟩) rfl (by norm_num)]

/-- The uint64 accessor on a boxed byte slice parses the bytes. -/
theorem boxBytes_Uint64 (cfg : Config) (b : GoSlice)
    (hb : b.ptrNil = true → b.data = []) :
    (boxBytes cfg b).Uint64 = anyUint64 (.aBytes b) := by
  obtain ⟨bd, bc, bn⟩ := b
  rcases boxBytes_forms cfg ⟨bd, bc, bn⟩ with ⟨h1, h2, h⟩ | h | h <;> rw [h]
  · cases bn with
    | true =>
      have hd : bd = [] := hb rfl
      subst hd
      rw [show slicePtr ⟨[], bc, true⟩ = Ptr.null from rfl]
      rw [(null_accessors _).2.2.2.1]
      rfl
    | false =>
      have h2x : bc - bd.length ≤ 0x7FFFFF := h2
      rw [show slicePtr ⟨bd, bc, false⟩ = Ptr.strData bd from rfl]
      rw [Uint64_shape _ (.strData bd) rfl,
        anpa_bytes _ bd rfl (show (bd.length * 0x100000000 + (bc - bd.length) * 0x100 + 2) % 0x100 = 2 by omega)]
      have hdiv : (bd.length * 0x100000000 + (bc - bd.length) * 0x100 + 2) /
          0x100000000 = bd.length := by omega
      rw [hdiv, List.take_length]
      rfl
  · rw [Uint64_shape _ (.ifaceData (.aBytes ⟨bd, bc, bn⟩)) rfl,
      anpa_iface _ (.aBytes ⟨bd, bc, bn⟩) rfl (by norm_num)]
  · rw [Uint64_shape _ (.anyRec (.aBytes ⟨bd, bc, bn⟩)) rfl,
      anpa_anyRec _ (.aBytes ⟨bd, bc, bn⟩) rfl (by norm_num)]

/-- The bool accessor on a boxed byte slice parses the bytes. -/
theorem boxBytes_Bool (cfg : Config) (b : GoSlice)
    (hb : b.ptrNil = true → b.data = []) :
    (boxBytes cfg b).Bool = anyBool (.aBytes b) := by
  obtain ⟨bd, bc, bn⟩ := b
  rcases boxBytes_forms cfg ⟨bd, bc, bn⟩ with ⟨h1, h2, h⟩ | h | h <;> rw [h]
  · cases bn with
    | true =>
      have hd : bd = [] := hb rfl
      subst hd
      rw [show slicePtr ⟨[], bc, true⟩ = Ptr.null from rfl]
      rw [(null_accessors _).2.2.2.2.2.1]
      rfl
    | false =>
      have h2x : bc - bd.length ≤ 0x7FFFFF := h2
      rw [show slicePtr ⟨bd, bc, false⟩ = Ptr.strData bd from rfl]
      rw [Bool_shape _ (.strData bd) rfl,
        anpa_bytes _ bd rfl (show (bd.length * 0x100000000 + (bc - bd.length) * 0x100 + 2) % 0x100 = 2 by omega)]
      have hdiv : (bd.length * 0x100000000 + (bc - bd.length) * 0x100 + 2) /
          0x100000000 = bd.length := by omega
      rw [hdiv, List.take_length]
      rfl
  · rw [Bool_shape _ (.ifaceData (.aBytes ⟨bd, bc, bn⟩)) rfl,
      anpa_iface _ (.aBytes ⟨bd, bc, bn⟩) rfl (by norm_num)]
  · rw [Bool_shape _ (.anyRec (.aBytes ⟨bd, bc, bn⟩)) rfl,
      anpa_anyRec _ (.aBytes ⟨bd, bc, bn⟩) rfl (by norm_num)]

/-- The float64 accessor on a boxed byte slice with a non-nil data pointer
parses the bytes (a nil slice degenerates to the nil kind instead). -/
theorem boxBytes_Float64 (cfg : Config) (b : GoSlice) (hn : b.ptrNil = false) :
    (boxBytes cfg b).Float64 = anyFloat64 (.aBytes b) := by
  obtain ⟨bd, bc, bn⟩ := b
  have hn' : bn = false := hn
  subst hn'
  rcases boxBytes_forms cfg ⟨bd, bc, false⟩ with ⟨h1, h2, h⟩ | h | h <;> rw [h]
  · have h2x : bc - bd.length ≤ 0x7FFFFF := h2
    rw [show slicePtr ⟨bd, bc, false⟩ = Ptr.strData bd from rfl]
    rw [Float64_shape _ (.strData bd) rfl,
      anpa_bytes _ bd rfl
        (show (bd.length * 0x100000000 + (bc - bd.length) * 0x100 + 2) % 0x100 = 2
          by omega)]
    have hdiv : (bd.length * 0x100000000 + (bc - bd.length) * 0x100 + 2) /
        0x100000000 = bd.length := by omega
    rw [hdiv, List.take_length]
    rfl
  · rw [Float64_shape _ (.ifaceData (.aBytes ⟨bd, bc, false⟩)) rfl,
      anpa_iface _ (.aBytes ⟨bd, bc, false⟩) rfl (by norm_num)]
  · rw [Float64_shape _ (.anyRec (.aBytes ⟨bd, bc, false⟩)) rfl,
      anpa_anyRec _ (.aBytes ⟨bd, bc, false⟩) rfl (by norm_num)]

/-- The tag of a boxed byte slice is 0 on every representation. -/
theorem boxBytes_Tag (cfg : Config) (b : GoSlice) :
    (boxBytes cfg b).Tag = 0 := by
  obtain ⟨bd, bc, bn⟩ := b
  rcases boxBytes_forms cfg ⟨bd, bc, bn⟩ with ⟨h1, h2, h⟩ | h | h <;> rw [h]
  · cases bn with
    | true =>
      rw [show slicePtr ⟨bd, bc, true⟩ = Ptr.null from rfl]
      exact (null_accessors _).2.2.2.2.2.2.1
    | false =>
      rw [show slicePtr ⟨bd, bc, false⟩ = Ptr.strData bd from rfl]
      exact Tag_bytesInline _ bd rfl
        (show (bd.length * 0x100000000 + (bc - bd.length) * 0x100 + 2) % 0x100 = 2
          by omega)
  · rw [Tag_iface _ (.aBytes ⟨bd, bc, bn⟩) rfl (by norm_num)]; rfl
  · rw [Tag_anyRec _ (.aBytes ⟨bd, bc, bn⟩) rfl (by norm_num)]; rfl

/-- A boxed byte slice never satisfies the string predicate. -/
theorem boxBytes_IsString (cfg : Config) (b : GoSlice) :
    (boxBytes cfg b).IsString = false := by
  obtain ⟨bd, bc, bn⟩ := b
  rcases boxBytes_forms cfg ⟨bd, bc, bn⟩ with ⟨h1, h2, h⟩ | h | h <;> rw [h]
  · cases bn with
    | true =>
      rw [show slicePtr ⟨bd, bc, true⟩ = Ptr.null from rfl]
      exact (null_accessors _).2.2.2.2.2.2.2.2.1
    | false =>
      rw [show slicePtr ⟨bd, bc, false⟩ = Ptr.strData bd from rfl]
      exact IsStr_bytesInline _ bd rfl
        (show (bd.length * 0x100000000 + (bc - bd.length) * 0x100 + 2) % 0x100 = 2
          by omega)
  · rw [IsStr_iface _ (.aBytes ⟨bd, bc, bn⟩) rfl (by norm_num)]; rfl
  · rw [IsStr_anyRec _ (.aBytes ⟨bd, bc, bn⟩) rfl (by norm_num)]; rfl

/-- A boxed byte slice with a non-nil data pointer satisfies the bytes
predicate on every representation. -/
theorem boxBytes_IsBytes (cfg : Config) (b : GoSlice) (hn : b.ptrNil = false) :
    (boxBytes cfg b).IsBytes = true := by
  obtain ⟨bd, bc, bn⟩ := b
  have hn' : bn = false := hn
  subst hn'
  rcases boxBytes_forms cfg ⟨bd, bc, false⟩ with ⟨h1, h2, h⟩ | h | h <;> rw [h]
  · rw [show slicePtr ⟨bd, bc, false⟩ = Ptr.strData bd from rfl]
    exact IsBy_bytesInline _ bd rfl
      (show (bd.length * 0x100000000 + (bc - bd.length) * 0x100 + 2) % 0x100 = 2
        by omega)
  · rw [IsBy_iface _ (.aBytes ⟨bd, bc, false⟩) rfl (by norm_num)]; rfl
  · rw [IsBy_anyRec _ (.aBytes ⟨bd, bc, false⟩) rfl (by norm_num)]; rfl

/-- The tag accessor on any escape-path representation of a tagged string. -/
theorem toIfaceTagged_Tag (cfg : Config) (t : Nat) (s : List Nat) :
    (toIface cfg (.aTagged t s)).Tag = t := by
  unfold toIface
  simp only [typeAddrOf, ifaceDataPtr, ptrIface, ptrIfacePtr]
  by_cases h2 : (!cfg.forceIfacePtrs && decide (0x1070 < 0x100000000000000)) = true
  · rw [if_pos h2]
    rw [Tag_iface _ (.aTagged t s) rfl (by norm_num)]
    rfl
  · rw [if_neg h2]
    rw [Tag_anyRec _ (.aTagged t s) rfl (by norm_num)]
    rfl

/-- The string accessor on any escape-path representation of a tagged string
(`*taggedString` renders through its `String()` method). -/
theorem toIfaceTagged_String (cfg : Config) (t : Nat) (s : List Nat) :
    (toIface cfg (.aTagged t s)).String = s := by
  unfold toIface
  simp only [typeAddrOf, ifaceDataPtr, ptrIface, ptrIfacePtr]
  by_cases h2 : (!cfg.forceIfacePtrs && decide (0x1070 < 0x100000000000000)) = true
  · rw [if_pos h2]
    rw [String_iface _ (.aTagged t s) rfl (by norm_num)]
    rfl
  · rw [if_neg h2]
    rw [String_anyRec _ (.aTagged t s) rfl (by norm_num)]
    rfl

/-- The tag accessor on a tagged boxed string returns the tag for every
nonempty text on every representation (an empty zero string degenerates to
the nil kind inline). -/
theorem boxStringWithTag_Tag (cfg : Config) (s : List Nat) (tag : Nat)
    (ht : tag < 0x10000) (hs : s ≠ []) :
    (boxStringWithTag cfg s tag).Tag = tag := by
  rcases boxStringWithTag_forms cfg s tag with h | h | h <;> rw [h]
  · cases s with
    | nil => exact absurd rfl hs
    | cons a t =>
      rw [show strPtr (a :: t) = Ptr.strData (a :: t) from rfl]
      rw [Tag_str _ (a :: t) rfl
        (show ((a :: t).length * 0x100000000 + tag * 0x100 + 1) % 0x100 = 1 by omega)]
      show ((a :: t).length * 0x100000000 + tag * 0x100 + 1) / 0x100 % 0x10000 = tag
      omega
  · rw [Tag_iface _ (.aTagged tag s) rfl (by norm_num)]
    rfl
  · rw [Tag_anyRec _ (.aTagged tag s) rfl (by norm_num)]
    rfl

/-- The tag survives the forced escape path even for empty text. -/
theorem boxStringWithTag_Tag_forced (cfg : Config) (s : List Nat) (tag : Nat)
    (hf : cfg.forceIfaceStrs = true) :
    (boxStringWithTag cfg s tag).Tag = tag := by
  unfold boxStringWithTag
  rw [if_pos (Or.inl hf)]
  exact toIfaceTagged_Tag cfg tag s

/-- The two shapes the escape path gives an opaque value whose interface data
word is non-nil. -/
theorem otherForms (cfg : Config) (o : OtherVal) (ho : o.dataNil = false) :
    boxAny cfg (.aOther o) = ⟨o.typAddr * 0x100 + 3, .ifaceData (.aOther o)⟩ ∨
    boxAny cfg (.aOther o) = ⟨4, .anyRec (.aOther o)⟩ := by
  show toIface cfg (.aOther o) = _ ∨ toIface cfg (.aOther o) = _
  unfold toIface
  simp only [typeAddrOf, ifaceDataPtr, ptrIface, ptrIfacePtr]
  by_cases hc : (!cfg.forceIfacePtrs && decide (o.typAddr < 0x100000000000000)) = true
  · left
    rw [if_pos hc]
    rw [show (if o.dataNil = true then Ptr.null else Ptr.ifaceData (.aOther o)) =
        Ptr.ifaceData (.aOther o) from by rw [ho]; rfl]
  · right
    rw [if_neg hc]

/-- The int64 accessor on a boxed opaque value with non-nil data word. -/
theorem boxAnyOther_Int64 (cfg : Config) (o : OtherVal) (ho : o.dataNil = false) :
    (boxAny cfg (.aOther o)).Int64 = anyInt64 (.aOther o) := by
  rcases otherForms cfg o ho with h | h <;> rw [h]
  · rw [Int64_shape _ (.ifaceData (.aOther o)) rfl,
      anpa_iface _ (.aOther o) rfl (show (o.typAddr * 0x100 + 3) % 0x100 = 3 by omega)]
  · rw [Int64_shape _ (.anyRec (.aOther o)) rfl,
      anpa_anyRec _ (.aOther o) rfl (by norm_num)]

/-- The uint64 accessor on a boxed opaque value with non-nil data word. -/
theorem boxAnyOther_Uint64 (cfg : Config) (o : OtherVal) (ho : o.dataNil = false) :
    (boxAny cfg (.aOther o)).Uint64 = anyUint64 (.aOther o) := by
  rcases otherForms cfg o ho with h | h <;> rw [h]
  · rw [Uint64_shape _ (.ifaceData (.aOther o)) rfl,
      anpa_iface _ (.aOther o) rfl (show (o.typAddr * 0x100 + 3) % 0x100 = 3 by omega)]
  · rw [Uint64_shape _ (.anyRec (.aOther o)) rfl,
      anpa_anyRec _ (.aOther o) rfl (by norm_num)]

/-- The float64 accessor on a boxed opaque value with non-nil data word. -/
theorem boxAnyOther_Float64 (cfg : Config) (o : OtherVal) (ho : o.dataNil = false) :
    (boxAny cfg (.aOther o)).Float64 = anyFloat64 (.aOther o) := by
  rcases otherForms cfg o ho with h | h <;> rw [h]
  · rw [Float64_shape _ (.ifaceData (.aOther o)) rfl,
      anpa_iface _ (.aOther o) rfl (show (o.typAddr * 0x100 + 3) % 0x100 = 3 by omega)]
  · rw [Float64_shape _ (.anyRec (.aOther o)) rfl,
      anpa_anyRec _ (.aOther o) rfl (by norm_num)]

/-- The bool accessor on a boxed opaque value with non-nil data word. -/
theorem boxAnyOther_Bool (cfg : Config) (o : OtherVal) (ho : o.dataNil = false) :
    (boxAny cfg (.aOther o)).Bool = anyBool (.aOther o) := by
  rcases otherForms cfg o ho with h | h <;> rw [h]
  · rw [Bool_shape _ (.ifaceData (.aOther o)) rfl,
      anpa_iface _ (.aOther o) rfl (show (o.typAddr * 0x100 + 3) % 0x100 = 3 by omega)]
  · rw [Bool_shape _ (.anyRec (.aOther o)) rfl,
      anpa_anyRec _ (.aOther o) rfl (by norm_num)]

/-- The erased-value accessor reconstructs a boxed opaque value with non-nil
data word on either escape path. -/
theorem boxAnyOther_Any (cfg : Config) (o : OtherVal) (ho : o.dataNil = false) :
    (boxAny cfg (.aOther o)).Any = .aOther o := by
  rcases otherForms cfg o ho with h | h <;> rw [h]
  · rw [Any_shape _ (.ifaceData (.aOther o)) rfl,
      anpa_iface _ (.aOther o) rfl (show (o.typAddr * 0x100 + 3) % 0x100 = 3 by omega)]
  · rw [Any_shape _ (.anyRec (.aOther o)) rfl,
      anpa_anyRec _ (.aOther o) rfl (by norm_num)]

/-- The string accessor renders a boxed opaque value with non-nil data word. -/
theorem boxAnyOther_String (cfg : Config) (o : OtherVal) (ho : o.dataNil = false) :
    (boxAny cfg (.aOther o)).String = o.render := by
  rcases otherForms cfg o ho with h | h <;> rw [h]
  · rw [String_iface _ (.aOther o) rfl (show (o.typAddr * 0x100 + 3) % 0x100 = 3 by omega)]
    rfl
  · rw [String_anyRec _ (.aOther o) rfl (by norm_num)]
    rfl

/-- The slow escape path reconstructs every opaque value, nil data word
included. -/
theorem boxAnyOther_Any_slow (cfg : Config) (o : OtherVal)
    (hf : cfg.forceIfacePtrs = true) :
    (boxAny cfg (.aOther o)).Any = .aOther o := by
  have h : boxAny cfg (.aOther o) = ⟨4, .anyRec (.aOther o)⟩ := by
    show toIface cfg (.aOther o) = _
    unfold toIface
    rw [if_neg (by simp [hf])]
    rfl
  rw [h, Any_shape _ (.anyRec (.aOther o)) rfl,
    anpa_anyRec _ (.aOther o) rfl (by norm_num)]

/-- The erased-value accessor reconstructs a boxed tagged string on either
escape path. -/
theorem boxAnyTagged_Any (cfg : Config) (t : Nat) (s : List Nat) :
    (boxAny cfg (.aTagged t s)).Any = .aTagged t s := by
  show (toIface cfg (.aTagged t s)).Any = _
  unfold toIface
  simp only [typeAddrOf, ifaceDataPtr, ptrIface, ptrIfacePtr]
  by_cases h2 : (!cfg.forceIfacePtrs && decide (0x1070 < 0x100000000000000)) = true
  · rw [if_pos h2]
    rw [Any_shape _ (.ifaceData (.aTagged t s)) rfl,
      anpa_iface _ (.aTagged t s) rfl (by norm_num)]
  · rw [if_neg h2]
    rw [Any_shape _ (.anyRec (.aTagged t s)) rfl,
      anpa_anyRec _ (.aTagged t s) rfl (by norm_num)]

/-- Two's-complement round trip: every int64 value survives
`int64(uint64(x))`. -/
theorem i64ofU64_u64ofInt (x : Int) (h1 : -9223372036854775808 ≤ x)
    (h2 : x < 9223372036854775808) : i64ofU64 (u64ofInt x) = x := by
  unfold i64ofU64 u64ofInt
  omega

/-- Every `toIface` result carries an escape-path tag. -/
theorem bytesEscaped_toIface (cfg : Config) (a : GoAny) :
    bytesEscaped (toIface cfg a) = true := by
  unfold toIface bytesEscaped ptrIface ptrIfacePtr
  by_cases hc : (!cfg.forceIfacePtrs && decide (typeAddrOf a < 0x100000000000000)) = true
  · rw [if_pos hc]
    have h3 : (typeAddrOf a * 0x100 + 3) % 0x100 = 3 := by omega
    show (decide ((typeAddrOf a * 0x100 + 3) % 0x100 = 3) || _) = true
    rw [h3]
    rfl
  · rw [if_neg hc]
    rfl

/-- Accessor values of a byte slice boxed through the escape path are
independent of which escape branch was used. -/
theorem toIfaceBytes_acc (cfg : Config) (b : GoSlice) :
    (toIface cfg (.aBytes b)).String = b.data ∧
    ((toIface cfg (.aBytes b)).Bytes).data = b.data ∧
    (toIface cfg (.aBytes b)).Int64 = anyInt64 (.aBytes b) ∧
    (toIface cfg (.aBytes b)).Uint64 = anyUint64 (.aBytes b) ∧
    (toIface cfg (.aBytes b)).Float64 = anyFloat64 (.aBytes b) ∧
    (toIface cfg (.aBytes b)).Bool = anyBool (.aBytes b) ∧
    (toIface cfg (.aBytes b)).Tag = 0 ∧
    (toIface cfg (.aBytes b)).IsString = false ∧
    (toIface cfg (.aBytes b)).IsBytes = true := by
  unfold toIface
  simp only [typeAddrOf, ifaceDataPtr, ptrIface, ptrIfacePtr]
  by_cases hc : (!cfg.forceIfacePtrs && decide (0x1020 < 0x100000000000000)) = true
  · rw [if_pos hc]
    refine ⟨?_, ?_, ?_, ?_, ?_, ?_, ?_, ?_, ?_⟩
    · rw [String_iface _ (.aBytes b) rfl (by norm_num)]; rfl
    · rw [Bytes_iface _ (.aBytes b) rfl (by norm_num)]; rfl
    · rw [Int64_shape _ (.ifaceData (.aBytes b)) rfl,
        anpa_iface _ (.aBytes b) rfl (by norm_num)]
    · rw [Uint64_shape _ (.ifaceData (.aBytes b)) rfl,
        anpa_iface _ (.aBytes b) rfl (by norm_num)]
    · rw [Float64_shape _ (.ifaceData (.aBytes b)) rfl,
        anpa_iface _ (.aBytes b) rfl (by norm_num)]
    · rw [Bool_shape _ (.ifaceData (.aBytes b)) rfl,
        anpa_iface _ (.aBytes b) rfl (by norm_num)]
    · rw [Tag_iface _ (.aBytes b) rfl (by norm_num)]; rfl
    · rw [IsStr_iface _ (.aBytes b) rfl (by norm_num)]; rfl
    · rw [IsBy_iface _ (.aBytes b) rfl (by norm_num)]; rfl
  · rw [if_neg hc]
    refine ⟨?_, ?_, ?_, ?_, ?_, ?_, ?_, ?_, ?_⟩
    · rw [String_anyRec _ (.aBytes b) rfl (by norm_num)]; rfl
    · rw [Bytes_anyRec _ (.aBytes b) rfl (by norm_num)]; rfl
    · rw [Int64_shape _ (.anyRec (.aBytes b)) rfl,
        anpa_anyRec _ (.aBytes b) rfl (by norm_num)]
    · rw [Uint64_shape _ (.anyRec (.aBytes b)) rfl,
        anpa_anyRec _ (.aBytes b) rfl (by norm_num)]
    · rw [Float64_shape _ (.anyRec (.aBytes b)) rfl,
        anpa_anyRec _ (.aBytes b) rfl (by norm_num)]
    · rw [Bool_shape _ (.anyRec (.aBytes b)) rfl,
        anpa_anyRec _ (.aBytes b) rfl (by norm_num)]
    · rw [Tag_anyRec _ (.aBytes b) rfl (by norm_num)]; rfl
    · rw [IsStr_anyRec _ (.aBytes b) rfl (by norm_num)]; rfl
    · rw [IsBy_anyRec _ (.aBytes b) rfl (by norm_num)]; rfl

/-- An oversized byte slice is redirected to the escape path. -/
theorem boxBytes_oversized (cfg : Config) (b : GoSlice)
    (h : maxLen < b.data.length ∨ maxCap < b.xcap - b.data.length) :
    boxBytes cfg b = toIface cfg (.aBytes b) := by
  unfold boxBytes
  rw [if_pos (Or.inr h)]

/-- C1: decoding a boxed primitive with the matching accessor returns the
value bit-for-bit: `Bool`, `Int64` (over the int64 range), `Uint64`,
`CustomBits` and `Float64` (on raw bit patterns, so every NaN payload is
preserved) all round-trip. -/
theorem box_c1_prim_roundtrip :
    (∀ t : Bool, (boxBool t).Bool = t) ∧
    (∀ x : Int, -9223372036854775808 ≤ x → x < 9223372036854775808 →
      (boxInt64 x).Int64 = x) ∧
    (∀ n : Nat, n < 18446744073709551616 → (boxUint64 n).Uint64 = n) ∧
    (∀ n : Nat, n < 18446744073709551616 → (boxCustomBits n).Uint64 = n) ∧
    (∀ bits : Nat, bits < 18446744073709551616 →
      (boxFloat64 bits).Float64 = bits) := by
  refine ⟨?_, ?_, ?_, ?_, ?_⟩
  · intro t; cases t <;> rfl
  · intro x h1 h2
    show i64ofU64 (u64ofInt x) = x
    exact i64ofU64_u64ofInt x h1 h2
  · intro n _; rfl
  · intro n _; rfl
  · intro bits _; rfl

/-- Witness for C1 at concrete primitive values. -/
theorem box_c1_prim_roundtrip_witness :
    (boxInt64 (-5)).Int64 = -5 ∧ (boxUint64 7).Uint64 = 7 ∧
    (boxCustomBits 9).Uint64 = 9 ∧
    (boxFloat64 0x7FF8000000000001).Float64 = 0x7FF8000000000001 :=
  ⟨box_c1_prim_roundtrip.2.1 (-5) (by decide) (by decide),
   box_c1_prim_roundtrip.2.2.1 7 (by decide),
   box_c1_prim_roundtrip.2.2.2.1 9 (by decide),
   box_c1_prim_roundtrip.2.2.2.2 0x7FF8000000000001 (by decide)⟩

/-- C2: `String(s).String() == s` for every string and
`Bytes(b).Bytes() == b` (as byte content) for every slice, under every force
switch; and for payloads exceeding the inline bounds the redirection to the
escape path is unobservable: every public accessor returns the same value
whichever representation branch was used. -/
theorem box_c2_text_bytes_roundtrip :
    (∀ (cfg : Config) (s : List Nat), (boxString cfg s).String = s) ∧
    (∀ (cfg : Config) (b : GoSlice), (b.ptrNil = true → b.data = []) →
      ((boxBytes cfg b).Bytes).data = b.data) ∧
    (∀ (cfg cfg' : Config) (s : List Nat), maxLen < s.length →
      ((boxString cfg s).Bytes).data = ((boxString cfg' s).Bytes).data ∧
      (boxString cfg s).Int64 = (boxString cfg' s).Int64 ∧
      (boxString cfg s).Uint64 = (boxString cfg' s).Uint64 ∧
      (boxString cfg s).Float64 = (boxString cfg' s).Float64 ∧
      (boxString cfg s).Bool = (boxString cfg' s).Bool ∧
      (boxString cfg s).Tag = (boxString cfg' s).Tag ∧
      (boxString cfg s).IsString = (boxString cfg' s).IsString ∧
      (boxString cfg s).IsBytes = (boxString cfg' s).IsBytes) ∧
    (∀ (cfg cfg' : Config) (b : GoSlice),
      (maxLen < b.data.length ∨ maxCap < b.xcap - b.data.length) →
      (boxBytes cfg b).String = (boxBytes cfg' b).String ∧
      ((boxBytes cfg b).Bytes).data = ((boxBytes cfg' b).Bytes).data ∧
      (boxBytes cfg b).Int64 = (boxBytes cfg' b).Int64 ∧
      (boxBytes cfg b).Uint64 = (boxBytes cfg' b).Uint64 ∧
      (boxBytes cfg b).Float64 = (boxBytes cfg' b).Float64 ∧
      (boxBytes cfg b).Bool = (boxBytes cfg' b).Bool ∧
      (boxBytes cfg b).Tag = (boxBytes cfg' b).Tag ∧
      (boxBytes cfg b).IsString = (boxBytes cfg' b).IsString ∧
      (boxBytes cfg b).IsBytes = (boxBytes cfg' b).IsBytes) := by
  refine ⟨boxString_String, boxBytes_Bytes, ?_, ?_⟩
  · intro cfg cfg' s hov
    have hs : s ≠ [] := by
      intro hh
      subst hh
      exact absurd hov (by decide)
    refine ⟨?_, ?_, ?_, ?_, ?_, ?_, ?_, ?_⟩
    · rw [boxString_Bytes cfg s, boxString_Bytes cfg' s]
    · rw [boxString_Int64 cfg s, boxString_Int64 cfg' s]
    · rw [boxString_Uint64 cfg s, boxString_Uint64 cfg' s]
    · rw [boxString_Float64 cfg s hs, boxString_Float64 cfg' s hs]
    · rw [boxString_Bool cfg s, boxString_Bool cfg' s]
    · rw [boxString_Tag cfg s, boxString_Tag cfg' s]
    · rw [boxString_IsString cfg s hs, boxString_IsString cfg' s hs]
    · rw [boxString_IsBytes cfg s, boxString_IsBytes cfg' s]
  · intro cfg cfg' b hov
    rw [boxBytes_oversized cfg b hov, boxBytes_oversized cfg' b hov]
    refine ⟨?_, ?_, ?_, ?_, ?_, ?_, ?_, ?_, ?_⟩
    · rw [(toIfaceBytes_acc cfg b).1, (toIfaceBytes_acc cfg' b).1]
    · rw [(toIfaceBytes_acc cfg b).2.1, (toIfaceBytes_acc cfg' b).2.1]
    · rw [(toIfaceBytes_acc cfg b).2.2.1, (toIfaceBytes_acc cfg' b).2.2.1]
    · rw [(toIfaceBytes_acc cfg b).2.2.2.1, (toIfaceBytes_acc cfg' b).2.2.2.1]
    · rw [(toIfaceBytes_acc cfg b).2.2.2.2.1, (toIfaceBytes_acc cfg' b).2.2.2.2.1]
    · rw [(toIfaceBytes_acc cfg b).2.2.2.2.2.1,
        (toIfaceBytes_acc cfg' b).2.2.2.2.2.1]
    · rw [(toIfaceBytes_acc cfg b).2.2.2.2.2.2.1,
        (toIfaceBytes_acc cfg' b).2.2.2.2.2.2.1]
    · rw [(toIfaceBytes_acc cfg b).2.2.2.2.2.2.2.1,
        (toIfaceBytes_acc cfg' b).2.2.2.2.2.2.2.1]
    · rw [(toIfaceBytes_acc cfg b).2.2.2.2.2.2.2.2,
        (toIfaceBytes_acc cfg' b).2.2.2.2.2.2.2.2]

/-- Witness for C2: nil-slice round trip, an oversized (2^31-byte) string and
a slice with oversized spare capacity agree across representation branches. -/
theorem box_c2_text_bytes_roundtrip_witness :
    ((boxBytes cfg0 ⟨[], 0, true⟩).Bytes).data = [] ∧
    (boxString ⟨true, false⟩ (List.replicate 2147483648 97)).Int64 =
      (boxString cfg0 (List.replicate 2147483648 97)).Int64 ∧
    (boxBytes ⟨false, true⟩ ⟨[7], 0x800008, false⟩).Int64 =
      (boxBytes cfg0 ⟨[7], 0x800008, false⟩).Int64 :=
  ⟨box_c2_text_bytes_roundtrip.2.1 cfg0 ⟨[], 0, true⟩ (fun _ => rfl),
   (box_c2_text_bytes_roundtrip.2.2.1 ⟨true, false⟩ cfg0 _
      (by rw [List.length_replicate]; decide)).2.1,
   (box_c2_text_bytes_roundtrip.2.2.2 ⟨false, true⟩ cfg0 ⟨[7], 0x800008, false⟩
      (Or.inr (by decide))).2.2.1⟩

/-- C3 counterexample: a boxed string and a boxed byte slice over aliased
storage have equal tag/pointer words W1 yet different discriminants, so W1
alone does not determine the kind.  (A Go string may legally share its byte
storage with a slice, e.g. via `unsafe.String`/`strings.Builder`; the model
represents a data pointer by its pointee, and equal pointees are exactly the
aliasable case.) -/
theorem box_c3_w1_counterexample :
    (boxString cfg0 (sb "ab")).ptr = (boxBytes cfg0 ⟨sb "ab", 2, false⟩).ptr ∧
    kindOf (boxString cfg0 (sb "ab")) = Kind.ktext ∧
    kindOf (boxBytes cfg0 ⟨sb "ab", 2, false⟩) = Kind.kbytes ∧
    kindOf (boxString cfg0 (sb "ab")) ≠
      kindOf (boxBytes cfg0 ⟨sb "ab", 2, false⟩) := by decide

/-- C3 amended: the pointer word W1 alone determines the discriminant of a
primitive value (and whether a value is primitive at all, by the sentinel
address-range test); for non-primitive values the discriminant is determined
by W1 together with the low byte of the extension word W0. -/
theorem box_c3_discriminant_amended :
    (∀ v1 v2 : Value, isPrimPtr v1.ptr = true → v1.ptr = v2.ptr →
      kindOf v1 = kindOf v2) ∧
    (∀ v1 v2 : Value, v1.ptr = v2.ptr → v1.ext % 0x100 = v2.ext % 0x100 →
      kindOf v1 = kindOf v2) ∧
    (∀ v : Value, primKindB (kindOf v) = isPrimPtr v.ptr) := by
  refine ⟨?_, ?_, ?_⟩
  · intro v1 v2 h1 h2
    obtain ⟨e1, p1⟩ := v1
    obtain ⟨e2, p2⟩ := v2
    have h2' : p1 = p2 := h2
    subst h2'
    cases p1 with
    | null => rfl
    | prim k => cases k <;> rfl
    | strData bs => simp [isPrimPtr] at h1
    | ifaceData a => simp [isPrimPtr] at h1
    | anyRec a => simp [isPrimPtr] at h1
  · intro v1 v2 h1 h2
    obtain ⟨e1, p1⟩ := v1
    obtain ⟨e2, p2⟩ := v2
    have h1' : p1 = p2 := h1
    subst h1'
    have h2' : e1 % 0x100 = e2 % 0x100 := h2
    cases p1 with
    | null => rfl
    | prim k => cases k <;> rfl
    | strData bs => simp only [kindOf]; rw [h2']
    | ifaceData a => simp only [kindOf]; rw [h2']
    | anyRec a => simp only [kindOf]; rw [h2']
  · intro v
    obtain ⟨e, p⟩ := v
    cases p with
    | null => rfl
    | prim k => cases k <;> rfl
    | strData bs => simp only [kindOf, isPrimPtr, primKindB]; split_ifs <;> rfl
    | ifaceData a => simp only [kindOf, isPrimPtr, primKindB]; split_ifs <;> rfl
    | anyRec a => simp only [kindOf, isPrimPtr, primKindB]; split_ifs <;> rfl

/-- Witness for C3 amended: two values with equal pointer word and equal low
extension byte share the discriminant. -/
theorem box_c3_discriminant_amended_witness :
    kindOf (boxString cfg0 (sb "ab")) = kindOf ⟨8589934593, .strData (sb "ab")⟩ :=
  box_c3_discriminant_amended.2.1 (boxString cfg0 (sb "ab"))
    ⟨8589934593, .strData (sb "ab")⟩ (by decide) (by decide)

/-- C4: the `Bytes` constructor keeps a slice on the inline path exactly when
its length is at most `maxLen` = 2^31-1 and its spare capacity at most
`maxCap` = 2^23-1; otherwise it carries an escape-path tag.  Boundary cases
(length 2^31-1 vs 2^31, spare 2^23-1 vs 2^23) are instances of the
equivalence. -/
theorem box_c4_bytes_bounds (cfg : Config) (b : GoSlice)
    (hf : cfg.forceIfaceStrs = false) :
    (bytesEscaped (boxBytes cfg b) = false ↔
      b.data.length ≤ maxLen ∧ b.xcap - b.data.length ≤ maxCap) := by
  have hm1 : maxLen = 0x7FFFFFFF := rfl
  have hm2 : maxCap = 0x7FFFFF := rfl
  unfold boxBytes
  by_cases h : cfg.forceIfaceStrs = true ∨ maxLen < b.data.length ∨
      maxCap < b.xcap - b.data.length
  · rw [if_pos h, bytesEscaped_toIface]
    constructor
    · intro hq
      exact Bool.noConfusion hq
    · intro hq
      exfalso
      rcases h with h | h
      · rw [hf] at h
        exact Bool.noConfusion h
      · omega
  · rw [if_neg h]
    simp only [not_or, not_lt] at h
    constructor
    · intro _
      exact ⟨h.2.1, h.2.2⟩
    · intro _
      unfold bytesEscaped
      have h2 : (b.data.length * 0x100000000 + (b.xcap - b.data.length) * 0x100 +
          2) % 0x100 = 2 := by omega
      show (decide ((b.data.length * 0x100000000 +
          (b.xcap - b.data.length) * 0x100 + 2) % 0x100 = 3) ||
        decide ((b.data.length * 0x100000000 +
          (b.xcap - b.data.length) * 0x100 + 2) % 0x100 = 4)) = false
      rw [h2]
      rfl

/-- Witness for C4 at a small inline slice. -/
theorem box_c4_bytes_bounds_witness :
    bytesEscaped (boxBytes cfg0 ⟨[7], 1, false⟩) = false :=
  (box_c4_bytes_bounds cfg0 ⟨[7], 1, false⟩ rfl).mpr (by decide)

/-- C5 counterexample: `Bytes(nil)` is an (empty) bytes payload whose numeric
parse fails, yet `Float64()` returns 0, not NaN — the nil data pointer of the
nil slice makes the boxed value degenerate to the nil kind (box.go line 27
treats a nil pointer as primitive, line 383 returns 0). -/
theorem box_c5_float_default_counterexample :
    parseFloat ([] : List Nat) = none ∧
    (boxBytes cfg0 ⟨[], 0, true⟩).Float64 = 0 ∧
    f64IsNaN ((boxBytes cfg0 ⟨[], 0, true⟩).Float64) = false ∧
    (boxString cfg0 []).Float64 = 0 := by decide

/-- C5 amended: every accessor is total (all functions below are total by
construction), and a failed numeric parse of a text or bytes payload yields
the fixed default — 0 for Int64 and Uint64, false for Bool, and NaN for
Float64 — except that an empty payload with a nil data pointer (a nil byte
slice or a zero string) degenerates to the nil kind, where Float64 yields 0. -/
theorem box_c5_parse_defaults :
    (∀ (cfg : Config) (s : List Nat), parseInt s = none →
      (boxString cfg s).Int64 = 0) ∧
    (∀ (cfg : Config) (s : List Nat), parseUint s = none →
      (boxString cfg s).Uint64 = 0) ∧
    (∀ (cfg : Config) (s : List Nat), parseBool s = none →
      (boxString cfg s).Bool = false) ∧
    (∀ (cfg : Config) (s : List Nat), parseFloat s = none → s ≠ [] →
      (boxString cfg s).Float64 = goNaNBits) ∧
    (∀ (cfg : Config) (b : GoSlice), parseInt b.data = none →
      (b.ptrNil = true → b.data = []) → (boxBytes cfg b).Int64 = 0) ∧
    (∀ (cfg : Config) (b : GoSlice), parseFloat b.data = none →
      b.ptrNil = false → (boxBytes cfg b).Float64 = goNaNBits) ∧
    ((boxString cfg0 (sb "not a number")).Int64 = 0 ∧
      (boxString cfg0 (sb "not a number")).Uint64 = 0 ∧
      (boxString cfg0 (sb "not a number")).Bool = false ∧
      (boxString cfg0 (sb "not a number")).Float64 = goNaNBits) := by
  refine ⟨?_, ?_, ?_, ?_, ?_, ?_, by decide⟩
  · intro cfg s hp
    rw [boxString_Int64]
    show (match parseInt s with | some x => x | none => (0 : Int)) = (0 : Int)
    rw [hp]
  · intro cfg s hp
    rw [boxString_Uint64]
    show (match parseUint s with | some x => x | none => 0) = 0
    rw [hp]
  · intro cfg s hp
    rw [boxString_Bool]
    show (match parseBool s with | some x => x | none => false) = false
    rw [hp]
  · intro cfg s hp hs
    rw [boxString_Float64 cfg s hs]
    show (match parseFloat s with | some x => x | none => goNaNBits) = goNaNBits
    rw [hp]
  · intro cfg b hp hb
    rw [boxBytes_Int64 cfg b hb]
    show (match parseInt b.data with | some x => x | none => (0 : Int)) = (0 : Int)
    rw [hp]
  · intro cfg b hp hn
    rw [boxBytes_Float64 cfg b hn]
    show (match parseFloat b.data with | some x => x | none => goNaNBits) =
      goNaNBits
    rw [hp]

/-- Witness for C5 amended at "not a number". -/
theorem box_c5_parse_defaults_witness :
    (boxString cfg0 (sb "not a number")).Int64 = 0 ∧
    (boxString cfg0 (sb "not a number")).Float64 = goNaNBits :=
  ⟨box_c5_parse_defaults.1 cfg0 (sb "not a number") (by decide),
   box_c5_parse_defaults.2.2.2.1 cfg0 (sb "not a number") (by decide) (by decide)⟩

/-- C6: a boxed float coerces to true exactly when it is neither a zero (of
either sign) nor a NaN; the coercion is `x > 0 || x < 0` under IEEE-754
comparison, so every NaN payload yields false. -/
theorem box_c6_float_bool (bits : Nat) (_hb : bits < 18446744073709551616) :
    ((boxFloat64 bits).Bool = true ↔
      (f64IsNaN bits = false ∧ bits % 0x8000000000000000 ≠ 0)) := by
  show ((f64Lt 0 bits || f64Lt bits 0) = true ↔ _)
  have hz : f64IsNaN 0 = false := by decide
  have hkey : f64Key bits = if f64SignBit bits = true
      then -((bits % 0x8000000000000000 : Nat) : Int)
      else ((bits % 0x8000000000000000 : Nat) : Int) := by
    unfold f64Key f64Mag
    by_cases hs : f64SignBit bits = true <;> simp [hs]
  have hkz : f64Key 0 = 0 := by decide
  unfold f64Lt
  rw [hz, hkz, hkey]
  by_cases hn : f64IsNaN bits = true
  · rw [hn]
    simp
  · have hn' : f64IsNaN bits = false := by revert hn; cases f64IsNaN bits <;> simp
    rw [hn']
    by_cases hs : f64SignBit bits = true
    · rw [if_pos hs]
      simp
      omega
    · rw [if_neg hs]
      simp
      omega

/-- Witness for C6 at the Go NaN pattern. -/
theorem box_c6_float_bool_witness :
    ((boxFloat64 0x7FF8000000000001).Bool = true ↔
      (f64IsNaN 0x7FF8000000000001 = false ∧
        0x7FF8000000000001 % 0x8000000000000000 ≠ 0)) :=
  box_c6_float_bool 0x7FF8000000000001 (by decide)

/-- C7 counterexample: an opaque boxed value with no conversion capabilities
whose textual form is "123" converts to 0, not to 123 — the accessor falls
back to the fixed default, it never parses the value's textual rendering
(box.go lines 485-499 switch only on `string`, `[]byte` and the capability
interfaces). -/
theorem box_c7_textual_fallback_counterexample :
    (boxAny cfg0 (.aOther ⟨0x3000, false, sb "123", none, none, none, none⟩)).String =
      sb "123" ∧
    parseInt (sb "123") = some 123 ∧
    (boxAny cfg0 (.aOther ⟨0x3000, false, sb "123", none, none, none, none⟩)).Int64 =
      0 ∧
    (boxAny cfg0 (.aOther ⟨0x3000, false, sb "123", none, none, none, none⟩)).Int64 ≠
      123 := by decide

/-- C7 amended: for an erased value (with a non-nil interface data word) each
scalar accessor returns the matching capability result when the value exposes
one; when it exposes none, the accessor parses the value itself when its
dynamic kind is string or byte slice, and otherwise returns the kind's fixed
default without consulting the value's textual rendering. -/
theorem box_c7_conversion_amended :
    (∀ (cfg : Config) (o : OtherVal), o.dataNil = false →
      (boxAny cfg (.aOther o)).Int64 = o.int64Cap.getD 0 ∧
      (boxAny cfg (.aOther o)).Uint64 = o.uint64Cap.getD 0 ∧
      (boxAny cfg (.aOther o)).Float64 = o.float64Cap.getD goNaNBits ∧
      (boxAny cfg (.aOther o)).Bool = o.boolCap.getD false) ∧
    (∀ (cfg : Config) (s : List Nat),
      (boxAny cfg (.aString s)).Int64 = (parseInt s).getD 0) ∧
    (∀ (cfg : Config) (b : GoSlice), (b.ptrNil = true → b.data = []) →
      (boxAny cfg (.aBytes b)).Int64 = (parseInt b.data).getD 0) := by
  refine ⟨?_, ?_, ?_⟩
  · intro cfg o ho
    refine ⟨?_, ?_, ?_, ?_⟩
    · rw [boxAnyOther_Int64 cfg o ho]
      show (match o.int64Cap with | some c => c | none => 0) = _
      cases o.int64Cap <;> rfl
    · rw [boxAnyOther_Uint64 cfg o ho]
      show (match o.uint64Cap with | some c => c | none => 0) = _
      cases o.uint64Cap <;> rfl
    · rw [boxAnyOther_Float64 cfg o ho]
      show (match o.float64Cap with | some c => c | none => goNaNBits) = _
      cases o.float64Cap <;> rfl
    · rw [boxAnyOther_Bool cfg o ho]
      show (match o.boolCap with | some c => c | none => false) = _
      cases o.boolCap <;> rfl
  · intro cfg s
    rw [show boxAny cfg (.aString s) = boxString cfg s from rfl, boxString_Int64]
    show (match parseInt s with | some x => x | none => (0 : Int)) = _
    cases parseInt s <;> rfl
  · intro cfg b hb
    rw [show boxAny cfg (.aBytes b) = boxBytes cfg b from rfl,
      boxBytes_Int64 cfg b hb]
    show (match parseInt b.data with | some x => x | none => (0 : Int)) = _
    cases parseInt b.data <;> rfl

/-- Witness for C7 amended: the Int64 capability result is preferred. -/
theorem box_c7_conversion_amended_witness :
    (boxAny cfg0 (.aOther ⟨0x3000, false, sb "19", none, some 7, none, none⟩)).Int64 =
      7 :=
  ((box_c7_conversion_amended.1 cfg0
      ⟨0x3000, false, sb "19", none, some 7, none, none⟩ rfl).1).trans rfl

/-- C8 counterexample: a value whose interface data word is nil (a nil
pointer boxed in an interface) travels the fast escape path into
`Value{typ<<8|3, nil}`, and `Any()` then reads it back as plain nil — not as
a value of the original dynamic kind (box.go line 27 classifies the nil
pointer word as primitive, line 370 returns nil). -/
theorem box_c8_escape_counterexample :
    (boxAny cfg0 (.aOther ⟨0x3000, true, sb "x", none, none, none, none⟩)).Any =
      .aNil ∧
    GoAny.aNil ≠ .aOther ⟨0x3000, true, sb "x", none, none, none, none⟩ ∧
    (boxAny cfg0 (.aOther ⟨0x3000, true, sb "x", none, none, none, none⟩)).IsNil =
      true := by decide

/-- C8 amended: `Any(v).Any()` reconstructs every erased value whose
interface data word is non-nil, on both the fast and the slow escape path
(the descriptor range and the force switch only select the branch); a value
with a nil data word is reconstructed only by the slow heap-boxed path. -/
theorem box_c8_escape_amended :
    (∀ (cfg : Config) (o : OtherVal), o.dataNil = false →
      (boxAny cfg (.aOther o)).Any = .aOther o) ∧
    (∀ (cfg : Config) (o : OtherVal), cfg.forceIfacePtrs = true →
      (boxAny cfg (.aOther o)).Any = .aOther o) ∧
    (∀ (cfg : Config) (t : Nat) (s : List Nat),
      (boxAny cfg (.aTagged t s)).Any = .aTagged t s) :=
  ⟨boxAnyOther_Any, boxAnyOther_Any_slow, boxAnyTagged_Any⟩

/-- Witness for C8 amended on both escape branches. -/
theorem box_c8_escape_amended_witness :
    (boxAny cfg0 (.aOther ⟨0x3000, false, sb "x", none, none, none, none⟩)).Any =
      .aOther ⟨0x3000, false, sb "x", none, none, none, none⟩ ∧
    (boxAny ⟨false, true⟩ (.aOther ⟨0x3000, true, sb "x", none, none, none,
      none⟩)).Any = .aOther ⟨0x3000, true, sb "x", none, none, none, none⟩ :=
  ⟨box_c8_escape_amended.1 cfg0 _ rfl, box_c8_escape_amended.2.1 _ _ rfl⟩

/-- C9 counterexample: `StringWithTag("", 42)` stores the zero string's nil
data pointer inline, the boxed value degenerates to the nil kind, and `Tag()`
returns 0 rather than 42. -/
theorem box_c9_tag_counterexample :
    (boxStringWithTag cfg0 [] 42).Tag = 0 ∧ (0 : Nat) ≠ 42 := by decide

/-- C9 amended: `StringWithTag(s, t).Tag() == t` for every nonempty text on
both the inline and the escape representation, and for every text (empty
included) on the forced escape path; `String(s).Tag() == 0` and
`Bytes(b).Tag() == 0` always.  The single exception is empty text stored
inline with its nil zero-string pointer, which degenerates to the nil kind
and reads tag 0. -/
theorem box_c9_tag_amended :
    (∀ (cfg : Config) (s : List Nat) (t : Nat), t < 0x10000 → s ≠ [] →
      (boxStringWithTag cfg s t).Tag = t) ∧
    (∀ (cfg : Config) (s : List Nat) (t : Nat), cfg.forceIfaceStrs = true →
      (boxStringWithTag cfg s t).Tag = t) ∧
    (∀ (cfg : Config) (s : List Nat), (boxString cfg s).Tag = 0) ∧
    (∀ (cfg : Config) (b : GoSlice), (boxBytes cfg b).Tag = 0) :=
  ⟨boxStringWithTag_Tag, boxStringWithTag_Tag_forced, boxString_Tag, boxBytes_Tag⟩

/-- Witness for C9 amended at the test value. -/
theorem box_c9_tag_amended_witness :
    (boxStringWithTag cfg0 (sb "hello") 999).Tag = 999 :=
  box_c9_tag_amended.1 cfg0 (sb "hello") 999 (by decide) (by decide)

/-- C10: the zero value of the struct (both words zero) is exactly `Nil()`:
it satisfies `IsNil`, and every accessor treats it as nil — empty string, 0
from the numeric accessors, false from `Bool`, nil from `Any`. -/
theorem box_c10_zero_value :
    boxNil = (⟨0, .null⟩ : Value) ∧
    Value.IsNil ⟨0, .null⟩ = true ∧
    Value.String ⟨0, .null⟩ = [] ∧
    Value.Int64 ⟨0, .null⟩ = 0 ∧
    Value.Uint64 ⟨0, .null⟩ = 0 ∧
    Value.Float64 ⟨0, .null⟩ = 0 ∧
    Value.Bool ⟨0, .null⟩ = false ∧
    Value.Any ⟨0, .null⟩ = .aNil := by decide

end Box
